import Mathlib

/-!
Verification development for the zero-rabbit RabbitMQ client wrapper
(`src/index.js`).  The JavaScript source is shallowly embedded: the
channel registry and its operations become pure functions over an
explicit state record, the asynchronous broker is an oracle supplying
the outcome of each request, and every broker interaction is recorded
in an explicit event trace (request issued / reply delivered).  The
`JSON.stringify` / `JSON.parse` platform primitives used by `publish`
and by the `ZeroRabbitMsg` wrapper are rendered as executable Lean
functions over a JSON value type (integer-valued numbers; compact text
exactly as `JSON.stringify` emits it).
-/

/-- A JavaScript runtime error: either `new Error(msg)` or the
`ReferenceError` raised when an unbound identifier is evaluated. -/
inductive JsError where
  | error (msg : String)
  | referenceError (name : String)
deriving DecidableEq, Repr

/-- String conversion of an error, as JavaScript's `'' + err` produces. -/
def jsString : JsError → String
  | JsError.error m => "Error: " ++ m
  | JsError.referenceError n => "ReferenceError: " ++ n ++ " is not defined"

/-- Channel objects returned by the broker are identified by a number. -/
abbrev ChannelId := Nat

/-- Lookup in a JS `Map` rendered as an insertion-ordered association list. -/
def mapGet {α : Type} : List (String × α) → String → Option α
  | [], _ => none
  | (k', v) :: m, k => if k' = k then some v else mapGet m k

/-- `Map.prototype.set`: replace the value in place if the key exists,
otherwise append the new entry. -/
def mapSet {α : Type} : List (String × α) → String → α → List (String × α)
  | [], k, v => [(k, v)]
  | (k', v') :: m, k, v => if k' = k then (k, v) :: m else (k', v') :: mapSet m k v

/-- `Map.prototype.delete`: remove the entry for the key, if any. -/
def mapDelete {α : Type} : List (String × α) → String → List (String × α)
  | [], _ => []
  | (k', v) :: m, k => if k' = k then m else (k', v) :: mapDelete m k

/-- The channel map stores `Option ChannelId` values because the source can
store the JS value `undefined` under a name (see
`createConfirmChannelPromise`).  `jsGet` is what `this.channels.get(name)`
followed by a `=== undefined` test observes: absent keys and stored
`undefined` are indistinguishable. -/
def jsGet (m : List (String × Option ChannelId)) (k : String) : Option ChannelId :=
  match mapGet m k with
  | none => none
  | some v => v

theorem mapGet_mapSet_self {α : Type} (m : List (String × α)) (k : String) (v : α) :
    mapGet (mapSet m k v) k = some v := by
  induction m with
  | nil => simp [mapGet, mapSet]
  | cons p m ih =>
    rcases p with ⟨k', v'⟩
    by_cases h : k' = k
    · simp [mapGet, mapSet, h]
    · simp [mapGet, mapSet, h, ih]

theorem jsGet_mapSet_self (m : List (String × Option ChannelId)) (k : String)
    (v : Option ChannelId) : jsGet (mapSet m k v) k = v := by
  simp [jsGet, mapGet_mapSet_self]

/-- JSON values, the domain of `publish` bodies.  Numbers are modelled as
integers (the claims' payloads are integer-valued; JS floating point is not
shallowly embeddable), objects as ordered field lists, matching the
enumeration order `JSON.stringify` uses. -/
inductive Json where
  | null : Json
  | bool (b : Bool) : Json
  | num (n : Int) : Json
  | str (s : String) : Json
  | arr (elems : List Json) : Json
  | obj (membs : List (String × Json)) : Json

/-- Decimal digit character, `'0'` through `'9'`. -/
def digitChar (n : Nat) : Char := Char.ofNat (48 + n)

/-- Lowercase hexadecimal digit character, as `JSON.stringify` emits in
`\u00XX` escapes. -/
def hexDigitChar (n : Nat) : Char :=
  if n < 10 then digitChar n else Char.ofNat (87 + n)

/-- Decimal digits of a natural number, most significant first.  The fuel
argument only bounds the recursion; `n + 1` is always enough. -/
def natDigitsAux : Nat → Nat → List Char
  | 0, _ => []
  | Nat.succ f, n =>
    if n < 10 then [digitChar n] else natDigitsAux f (n / 10) ++ [digitChar (n % 10)]

/-- Decimal digits of a natural number, most significant first. -/
def natDigits (n : Nat) : List Char := natDigitsAux (n + 1) n

/-- Decimal text of an integer, as `JSON.stringify` prints integer-valued
numbers. -/
def emitInt (n : Int) : List Char :=
  if n < 0 then '-' :: natDigits n.natAbs else natDigits n.toNat

/-- The escape `JSON.stringify` applies to one character inside a string
literal: `"` and `\` get a backslash, the named controls use their short
escapes, the remaining control characters become `\u00XX`, and everything
else is emitted verbatim. -/
def escChar (c : Char) : List Char :=
  if c = '"' then ['\\', '"']
  else if c = '\\' then ['\\', '\\']
  else if c = '\x08' then ['\\', 'b']
  else if c = '\x0c' then ['\\', 'f']
  else if c = '\n' then ['\\', 'n']
  else if c = '\r' then ['\\', 'r']
  else if c = '\t' then ['\\', 't']
  else if c.toNat < 32 then
    ['\\', 'u', '0', '0', hexDigitChar (c.toNat / 16), hexDigitChar (c.toNat % 16)]
  else [c]

/-- Escape every character of a string body. -/
def escapeList : List Char → List Char
  | [] => []
  | c :: cs => escChar c ++ escapeList cs

/-- A JSON string literal: quote, escaped body, quote. -/
def emitStr (s : String) : List Char := '"' :: (escapeList s.data ++ ['"'])

mutual

/-- Compact JSON text of a value, character by character — the output of
`JSON.stringify` (which inserts no whitespace). -/
def emitV : Json → List Char
  | Json.null => ['n', 'u', 'l', 'l']
  | Json.bool true => ['t', 'r', 'u', 'e']
  | Json.bool false => ['f', 'a', 'l', 's', 'e']
  | Json.num n => emitInt n
  | Json.str s => emitStr s
  | Json.arr xs => '[' :: emitElems xs
  | Json.obj ms => '{' :: emitMembers ms

/-- Array elements followed by the closing bracket. -/
def emitElems : List Json → List Char
  | [] => [']']
  | [x] => emitV x ++ [']']
  | x :: y :: xs => emitV x ++ ',' :: emitElems (y :: xs)

/-- Object members followed by the closing brace. -/
def emitMembers : List (String × Json) → List Char
  | [] => ['}']
  | [(k, v)] => emitStr k ++ ':' :: (emitV v ++ ['}'])
  | (k, v) :: m :: ms => emitStr k ++ ':' :: (emitV v ++ ',' :: emitMembers (m :: ms))

end

/-- `JSON.stringify` on the modelled JSON fragment. -/
def Json.stringify (v : Json) : String := String.mk (emitV v)

/-- Numeric value of a hexadecimal digit character. -/
def hexVal (c : Char) : Nat :=
  if c.isDigit then c.toNat - 48
  else if 'a' ≤ c ∧ c ≤ 'f' then c.toNat - 87
  else c.toNat - 55

/-- Whether a character is a hexadecimal digit. -/
def isHexDigitC (c : Char) : Bool :=
  c.isDigit || ('a' ≤ c && c ≤ 'f') || ('A' ≤ c && c ≤ 'F')

/-- Body of a JSON string literal after the opening quote: unescape up to the
closing quote, returning the decoded characters and the rest of the input. -/
def parseStringChars : List Char → Option (List Char × List Char)
  | [] => none
  | c :: cs =>
    if c = '"' then some ([], cs)
    else if c = '\\' then
      match cs with
      | [] => none
      | e :: cs' =>
        if e = '"' then (parseStringChars cs').map (fun p => ('"' :: p.1, p.2))
        else if e = '\\' then (parseStringChars cs').map (fun p => ('\\' :: p.1, p.2))
        else if e = '/' then (parseStringChars cs').map (fun p => ('/' :: p.1, p.2))
        else if e = 'b' then (parseStringChars cs').map (fun p => ('\x08' :: p.1, p.2))
        else if e = 'f' then (parseStringChars cs').map (fun p => ('\x0c' :: p.1, p.2))
        else if e = 'n' then (parseStringChars cs').map (fun p => ('\n' :: p.1, p.2))
        else if e = 'r' then (parseStringChars cs').map (fun p => ('\r' :: p.1, p.2))
        else if e = 't' then (parseStringChars cs').map (fun p => ('\t' :: p.1, p.2))
        else if e = 'u' then
          match cs' with
          | h1 :: h2 :: h3 :: h4 :: cs'' =>
            if isHexDigitC h1 && isHexDigitC h2 && isHexDigitC h3 && isHexDigitC h4 then
              (parseStringChars cs'').map
                (fun p =>
                  (Char.ofNat
                      (hexVal h1 * 4096 + hexVal h2 * 256 + hexVal h3 * 16 + hexVal h4)
                    :: p.1, p.2))
            else none
          | _ => none
        else none
    else (parseStringChars cs).map (fun p => (c :: p.1, p.2))
termination_by cs => cs.length
decreasing_by all_goals simp_wf <;> omega

/-- Consume a run of decimal digits, accumulating their value. -/
def parseDigits : List Char → Nat → Nat × List Char
  | [], acc => (acc, [])
  | c :: cs, acc =>
    if c.isDigit then parseDigits cs (acc * 10 + (c.toNat - 48)) else (acc, c :: cs)

/-- Parse a natural number literal (at least one leading digit). -/
def parseNat (cs : List Char) : Option (Nat × List Char) :=
  match cs with
  | [] => none
  | c :: _ => if c.isDigit then some (parseDigits cs 0) else none

/-- Whether the input starts with a decimal digit. -/
def digitHead : List Char → Bool
  | [] => false
  | c :: _ => c.isDigit

/-- Whether the input starts with the given character. -/
def headIsChar (c : Char) : List Char → Bool
  | [] => false
  | d :: _ => d = c

mutual

/-- Recursive-descent parser for the compact JSON fragment `JSON.stringify`
emits (no insignificant whitespace) — the behaviour of `JSON.parse` on such
payloads.  Fuel bounds the nesting recursion. -/
def parseValue : Nat → List Char → Option (Json × List Char)
  | 0, _ => none
  | Nat.succ f, cs =>
    match cs with
    | [] => none
    | c :: cs' =>
      if c = 'n' then
        match cs' with
        | 'u' :: 'l' :: 'l' :: r => some (Json.null, r)
        | _ => none
      else if c = 't' then
        match cs' with
        | 'r' :: 'u' :: 'e' :: r => some (Json.bool true, r)
        | _ => none
      else if c = 'f' then
        match cs' with
        | 'a' :: 'l' :: 's' :: 'e' :: r => some (Json.bool false, r)
        | _ => none
      else if c = '"' then
        (parseStringChars cs').map (fun p => (Json.str (String.mk p.1), p.2))
      else if c = '[' then
        if headIsChar ']' cs' then some (Json.arr [], cs'.tail)
        else (parseElems f cs').map (fun p => (Json.arr p.1, p.2))
      else if c = '{' then
        if headIsChar '}' cs' then some (Json.obj [], cs'.tail)
        else (parseMembers f cs').map (fun p => (Json.obj p.1, p.2))
      else if c = '-' then
        (parseNat cs').map (fun p => (Json.num (-(p.1 : Int)), p.2))
      else if c.isDigit then
        (parseNat (c :: cs')).map (fun p => (Json.num (p.1 : Int), p.2))
      else none

/-- One or more array elements, consuming the closing bracket. -/
def parseElems : Nat → List Char → Option (List Json × List Char)
  | 0, _ => none
  | Nat.succ f, cs =>
    match parseValue f cs with
    | none => none
    | some (v, r) =>
      match r with
      | [] => none
      | d :: r' =>
        if d = ',' then (parseElems f r').map (fun p => (v :: p.1, p.2))
        else if d = ']' then some ([v], r')
        else none

/-- One or more object members, consuming the closing brace. -/
def parseMembers : Nat → List Char → Option (List (String × Json) × List Char)
  | 0, _ => none
  | Nat.succ f, cs =>
    match cs with
    | [] => none
    | c :: cs' =>
      if c = '"' then
        match parseStringChars cs' with
        | none => none
        | some (k, r) =>
          match r with
          | [] => none
          | d :: r' =>
            if d = ':' then
              match parseValue f r' with
              | none => none
              | some (v, r2) =>
                match r2 with
                | [] => none
                | e :: r3 =>
                  if e = ',' then
                    (parseMembers f r3).map (fun p => ((String.mk k, v) :: p.1, p.2))
                  else if e = '}' then some ([(String.mk k, v)], r3)
                  else none
            else none
      else none

end

/-- `JSON.parse` on the modelled fragment: parse a complete value; any
leftover input or parse failure throws in JS, here `none`. -/
def Json.parse (s : String) : Option Json :=
  match parseValue (s.data.length + 1) s.data with
  | some (v, []) => some v
  | _ => none

theorem digitChar_toNat (n : Nat) (h : n < 10) : (digitChar n).toNat = 48 + n := by
  interval_cases n <;> decide

theorem digitChar_isDigit (n : Nat) (h : n < 10) : (digitChar n).isDigit = true := by
  interval_cases n <;> decide

theorem parseDigits_notDigit (cs : List Char) (acc : Nat) (h : digitHead cs = false) :
    parseDigits cs acc = (acc, cs) := by
  cases cs with
  | nil => rfl
  | cons c cs =>
    simp only [digitHead] at h
    simp [parseDigits, h]

theorem parseDigits_run (ds : List Char) (hd : ∀ c ∈ ds, c.isDigit = true)
    (rest : List Char) (acc : Nat) :
    parseDigits (ds ++ rest) acc
      = parseDigits rest (ds.foldl (fun a c => a * 10 + (c.toNat - 48)) acc) := by
  induction ds generalizing acc with
  | nil => simp
  | cons c ds ih =>
    have hc := hd c (by simp)
    simp [parseDigits, hc, ih (fun c h => hd c (by simp [h]))]

theorem natDigitsAux_spec : ∀ f n, n < f →
    (∀ c ∈ natDigitsAux f n, c.isDigit = true) ∧ natDigitsAux f n ≠ [] ∧
      ∀ acc, (natDigitsAux f n).foldl (fun a c => a * 10 + (c.toNat - 48)) acc
        = acc * 10 ^ (natDigitsAux f n).length + n := by
  intro f
  induction f with
  | zero => omega
  | succ f ih =>
    intro n hn
    by_cases h10 : n < 10
    · refine ⟨?_, ?_, ?_⟩
      · intro c hc
        simp [natDigitsAux, h10] at hc
        simp [hc, digitChar_isDigit n h10]
      · simp [natDigitsAux, h10]
      · intro acc
        simp [natDigitsAux, h10, digitChar_toNat n h10]
    · have hdivlt : n / 10 < n := Nat.div_lt_self (by omega) (by omega)
      have hdiv : n / 10 < f := by omega
      obtain ⟨ihd, ihne, ihfold⟩ := ih (n / 10) hdiv
      refine ⟨?_, ?_, ?_⟩
      · intro c hc
        simp [natDigitsAux, h10] at hc
        rcases hc with hc | hc
        · exact ihd c hc
        · simp [hc, digitChar_isDigit (n % 10) (Nat.mod_lt n (by omega))]
      · simp [natDigitsAux, h10]
      · intro acc
        simp only [natDigitsAux, h10, if_false, List.foldl_append, List.length_append]
        simp [ihfold, digitChar_toNat (n % 10) (Nat.mod_lt n (by omega)), pow_succ,
          ← mul_assoc]
        generalize acc * 10 ^ (natDigitsAux f (n / 10)).length = y
        omega

theorem natDigits_spec (n : Nat) :
    (∀ c ∈ natDigits n, c.isDigit = true) ∧ natDigits n ≠ [] ∧
      ∀ acc, (natDigits n).foldl (fun a c => a * 10 + (c.toNat - 48)) acc
        = acc * 10 ^ (natDigits n).length + n :=
  natDigitsAux_spec (n + 1) n (by omega)

theorem parseNat_natDigits (n : Nat) (rest : List Char) (h : digitHead rest = false) :
    parseNat (natDigits n ++ rest) = some (n, rest) := by
  obtain ⟨hdig, hne, hfold⟩ := natDigits_spec n
  cases hd : natDigits n with
  | nil => exact absurd hd hne
  | cons c cs =>
    have hc : c.isDigit = true := hdig c (by rw [hd]; simp)
    have hrun := parseDigits_run (natDigits n) hdig rest 0
    rw [parseDigits_notDigit rest _ h, hfold 0] at hrun
    rw [hd, List.cons_append] at hrun
    simp only [List.cons_append, parseNat, hc, if_pos]
    rw [hrun]
    simp

theorem hexDigitChar_spec (k : Nat) (h : k < 16) :
    isHexDigitC (hexDigitChar k) = true ∧ hexVal (hexDigitChar k) = k := by
  interval_cases k <;> exact ⟨by decide, by decide⟩

theorem parseStringChars_escape (cs rest : List Char) :
    parseStringChars (escapeList cs ++ '"' :: rest) = some (cs, rest) := by
  induction cs with
  | nil =>
    simp only [escapeList, List.nil_append]
    rw [parseStringChars.eq_def]
    simp +decide
  | cons c cs ih =>
    by_cases h1 : c = '"'
    · subst h1
      simp only [escapeList, escChar, if_pos rfl, List.cons_append, List.append_assoc]
      rw [parseStringChars.eq_def]
      simp +decide [ih]
    by_cases h2 : c = '\\'
    · subst h2
      simp +decide only [escapeList, escChar, List.cons_append, List.append_assoc]
      rw [parseStringChars.eq_def]
      simp +decide [ih]
    by_cases h3 : c = '\x08'
    · subst h3
      simp +decide only [escapeList, escChar, List.cons_append, List.append_assoc]
      rw [parseStringChars.eq_def]
      simp +decide [ih]
    by_cases h4 : c = '\x0c'
    · subst h4
      simp +decide only [escapeList, escChar, List.cons_append, List.append_assoc]
      rw [parseStringChars.eq_def]
      simp +decide [ih]
    by_cases h5 : c = '\n'
    · subst h5
      simp +decide only [escapeList, escChar, List.cons_append, List.append_assoc]
      rw [parseStringChars.eq_def]
      simp +decide [ih]
    by_cases h6 : c = '\r'
    · subst h6
      simp +decide only [escapeList, escChar, List.cons_append, List.append_assoc]
      rw [parseStringChars.eq_def]
      simp +decide [ih]
    by_cases h7 : c = '\t'
    · subst h7
      simp +decide only [escapeList, escChar, List.cons_append, List.append_assoc]
      rw [parseStringChars.eq_def]
      simp +decide [ih]
    by_cases h8 : c.toNat < 32
    · have hd16 : c.toNat / 16 < 16 := by omega
      have hm16 : c.toNat % 16 < 16 := by omega
      obtain ⟨hx3, hv3⟩ := hexDigitChar_spec _ hd16
      obtain ⟨hx4, hv4⟩ := hexDigitChar_spec _ hm16
      have hval : hexVal '0' * 4096 + hexVal '0' * 256
          + hexVal (hexDigitChar (c.toNat / 16)) * 16 + hexVal (hexDigitChar (c.toNat % 16))
          = c.toNat := by
        rw [hv3, hv4]
        have h0 : hexVal '0' = 0 := by decide
        rw [h0]
        omega
      simp only [escapeList, escChar, h1, h2, h3, h4, h5, h6, h7, h8, if_false, if_pos,
        if_true, List.cons_append, List.append_assoc]
      rw [parseStringChars.eq_def]
      simp +decide only [hx3, hx4]
      rw [hval, Char.ofNat_toNat]
      simp [ih]
    · simp only [escapeList, escChar, h1, h2, h3, h4, h5, h6, h7, h8, if_false,
        List.cons_append, List.singleton_append]
      rw [parseStringChars.eq_def]
      simp only [if_neg h1, if_neg h2, List.nil_append, ih]
      rfl

mutual

/-- Fuel sufficient for `parseValue` to parse the emitted text of a value:
one unit per parser recursion step. -/
def jfuelV : Json → Nat
  | Json.null => 1
  | Json.bool _ => 1
  | Json.num _ => 1
  | Json.str _ => 1
  | Json.arr xs => 1 + jfuelElems xs
  | Json.obj ms => 1 + jfuelMembers ms

/-- Fuel sufficient for `parseElems` on an emitted element list. -/
def jfuelElems : List Json → Nat
  | [] => 0
  | [x] => 1 + jfuelV x
  | x :: y :: xs => 1 + jfuelV x + jfuelElems (y :: xs)

/-- Fuel sufficient for `parseMembers` on an emitted member list. -/
def jfuelMembers : List (String × Json) → Nat
  | [] => 0
  | [(_, v)] => 1 + jfuelV v
  | (_, v) :: m :: ms => 1 + jfuelV v + jfuelMembers (m :: ms)

end

theorem jfuelV_pos (v : Json) : 1 ≤ jfuelV v := by
  cases v <;> simp [jfuelV]

theorem isDigit_ne (c : Char) (h : c.isDigit = true) :
    c ≠ 'n' ∧ c ≠ 't' ∧ c ≠ 'f' ∧ c ≠ '"' ∧ c ≠ '[' ∧ c ≠ '{' ∧ c ≠ '-' ∧ c ≠ ']' := by
  refine ⟨?_, ?_, ?_, ?_, ?_, ?_, ?_, ?_⟩ <;> (rintro rfl; revert h; decide)

theorem emitElems_cons (x : Json) (xs : List Json) :
    ∃ t, emitElems (x :: xs) = emitV x ++ t := by
  cases xs with
  | nil => exact ⟨[']'], rfl⟩
  | cons y ys => exact ⟨',' :: emitElems (y :: ys), rfl⟩

theorem natDigits_head (n : Nat) : ∃ c cs, natDigits n = c :: cs ∧ c.isDigit = true := by
  obtain ⟨hdig, hne, -⟩ := natDigits_spec n
  cases hd : natDigits n with
  | nil => exact absurd hd hne
  | cons c cs => exact ⟨c, cs, rfl, hdig c (by rw [hd]; simp)⟩

theorem emitV_head_ne_rbracket (v : Json) : ∃ c cs, emitV v = c :: cs ∧ c ≠ ']' := by
  cases v with
  | null => exact ⟨'n', _, rfl, by decide⟩
  | bool b =>
    cases b with
    | false => exact ⟨'f', _, rfl, by decide⟩
    | true => exact ⟨'t', _, rfl, by decide⟩
  | num n =>
    by_cases hneg : n < 0
    · exact ⟨'-', natDigits n.natAbs, by simp [emitV, emitInt, hneg], by decide⟩
    · obtain ⟨c, cs, hd, hdig⟩ := natDigits_head n.toNat
      exact ⟨c, cs, by simp [emitV, emitInt, hneg, hd], (isDigit_ne c hdig).2.2.2.2.2.2.2⟩
  | str s => exact ⟨'"', _, rfl, by decide⟩
  | arr xs => exact ⟨'[', _, rfl, by decide⟩
  | obj ms => exact ⟨'{', _, rfl, by decide⟩

theorem emitMembers_cons (kd : List Char) (v : Json) (ms : List (String × Json)) :
    ∃ t, emitMembers ((String.mk kd, v) :: ms) = '"' :: (escapeList kd ++ ('"' :: (':' :: t))) := by
  cases ms with
  | nil => exact ⟨emitV v ++ ['}'], by simp [emitMembers, emitStr]⟩
  | cons m ms => exact ⟨emitV v ++ ',' :: emitMembers (m :: ms), by simp [emitMembers, emitStr]⟩

theorem parse_emit : ∀ f : Nat,
    (∀ v rest, jfuelV v ≤ f → digitHead rest = false →
      parseValue f (emitV v ++ rest) = some (v, rest)) ∧
    (∀ x xs rest, jfuelElems (x :: xs) ≤ f → digitHead rest = false →
      parseElems f (emitElems (x :: xs) ++ rest) = some (x :: xs, rest)) ∧
    (∀ p ms rest, jfuelMembers (p :: ms) ≤ f → digitHead rest = false →
      parseMembers f (emitMembers (p :: ms) ++ rest) = some (p :: ms, rest)) := by
  intro f
  induction f with
  | zero =>
    refine ⟨?_, ?_, ?_⟩
    · intro v rest hf _
      exact absurd hf (by have := jfuelV_pos v; omega)
    · intro x xs rest hf _
      exfalso
      cases xs <;> simp [jfuelElems] at hf
    · intro p ms rest hf _
      exfalso
      obtain ⟨k, v⟩ := p
      cases ms <;> simp [jfuelMembers] at hf
  | succ f ih =>
    obtain ⟨ihV, ihE, ihM⟩ := ih
    refine ⟨?_, ?_, ?_⟩
    · intro v rest hf hd
      cases v with
      | null => simp +decide [emitV, parseValue]
      | bool b => cases b <;> simp +decide [emitV, parseValue]
      | num n =>
        by_cases hneg : n < 0
        · simp only [emitV, emitInt, if_pos hneg, List.cons_append]
          simp +decide only [parseValue]
          rw [parseNat_natDigits n.natAbs rest hd]
          simp [abs_of_neg hneg]
        · obtain ⟨c, cs, hc, hcd⟩ := natDigits_head n.toNat
          obtain ⟨hn1, hn2, hn3, hn4, hn5, hn6, hn7, hn8⟩ := isDigit_ne c hcd
          simp only [emitV, emitInt, if_neg hneg, hc, List.cons_append]
          simp only [parseValue, if_neg hn1, if_neg hn2, if_neg hn3, if_neg hn4, if_neg hn5,
            if_neg hn6, if_neg hn7, if_pos hcd]
          rw [← List.cons_append, ← hc, parseNat_natDigits n.toNat rest hd]
          have h2 : ((n.toNat : Nat) : Int) = n := Int.toNat_of_nonneg (by omega)
          simp [h2]
      | str s =>
        cases s with
        | mk sd =>
          simp only [emitV, emitStr, List.cons_append, List.append_assoc, List.nil_append]
          simp +decide [parseValue, parseStringChars_escape]
      | arr xs =>
        cases xs with
        | nil => simp +decide [emitV, emitElems, parseValue, headIsChar]
        | cons x xs =>
          have hfe : jfuelElems (x :: xs) ≤ f := by simp [jfuelV] at hf; omega
          have ihE' := ihE x xs rest hfe hd
          obtain ⟨c, cs, hc, hne⟩ := emitV_head_ne_rbracket x
          obtain ⟨t, ht⟩ := emitElems_cons x xs
          have hassoc : emitV (Json.arr (x :: xs)) ++ rest
              = '[' :: (emitElems (x :: xs) ++ rest) := by simp [emitV]
          have hshape : emitElems (x :: xs) ++ rest = c :: (cs ++ (t ++ rest)) := by
            rw [ht, hc]; simp
          rw [hassoc, hshape]
          rw [hshape] at ihE'
          simp +decide [parseValue, headIsChar, hne, ihE']
      | obj ms =>
        cases ms with
        | nil => simp +decide [emitV, emitMembers, parseValue, headIsChar]
        | cons p ms =>
          obtain ⟨k, v⟩ := p
          cases k with
          | mk kd =>
            have hfm : jfuelMembers ((String.mk kd, v) :: ms) ≤ f := by
              simp [jfuelV] at hf; omega
            have ihM' := ihM (String.mk kd, v) ms rest hfm hd
            obtain ⟨t, ht⟩ := emitMembers_cons kd v ms
            have hassoc : emitV (Json.obj ((String.mk kd, v) :: ms)) ++ rest
                = '{' :: (emitMembers ((String.mk kd, v) :: ms) ++ rest) := by simp [emitV]
            have hshape : emitMembers ((String.mk kd, v) :: ms) ++ rest
                = '"' :: (escapeList kd ++ ('"' :: (':' :: (t ++ rest)))) := by rw [ht]; simp
            rw [hassoc, hshape]
            rw [hshape] at ihM'
            simp +decide [parseValue, headIsChar, ihM']
    · intro x xs rest hf hd
      cases xs with
      | nil =>
        have hfv : jfuelV x ≤ f := by simp [jfuelElems] at hf; omega
        have ihV' := ihV x (']' :: rest) hfv (by simp +decide [digitHead])
        have hshape : emitElems [x] ++ rest = emitV x ++ (']' :: rest) := by simp [emitElems]
        rw [hshape]
        simp +decide [parseElems, ihV']
      | cons y ys =>
        have hfv : jfuelV x ≤ f := by simp [jfuelElems] at hf; omega
        have hfe : jfuelElems (y :: ys) ≤ f := by simp [jfuelElems] at hf; omega
        have ihE' := ihE y ys rest hfe hd
        have ihV' := ihV x (',' :: (emitElems (y :: ys) ++ rest)) hfv (by simp +decide [digitHead])
        have hshape : emitElems (x :: y :: ys) ++ rest
            = emitV x ++ (',' :: (emitElems (y :: ys) ++ rest)) := by simp [emitElems]
        rw [hshape]
        simp +decide [parseElems, ihV', ihE']
    · intro p ms rest hf hd
      obtain ⟨k, v⟩ := p
      cases k with
      | mk kd =>
        cases ms with
        | nil =>
          have hfv : jfuelV v ≤ f := by simp [jfuelMembers] at hf; omega
          have ihV' := ihV v ('}' :: rest) hfv (by simp +decide [digitHead])
          have hshape : emitMembers [(String.mk kd, v)] ++ rest
              = '"' :: (escapeList kd ++ ('"' :: (':' :: (emitV v ++ ('}' :: rest))))) := by
            simp [emitMembers, emitStr]
          rw [hshape]
          simp +decide [parseMembers, parseStringChars_escape, ihV']
        | cons m ms =>
          have hfv : jfuelV v ≤ f := by simp [jfuelMembers] at hf; omega
          have hfm : jfuelMembers (m :: ms) ≤ f := by simp [jfuelMembers] at hf; omega
          have ihM' := ihM m ms rest hfm hd
          have ihV' := ihV v (',' :: (emitMembers (m :: ms) ++ rest)) hfv
            (by simp +decide [digitHead])
          have hshape : emitMembers ((String.mk kd, v) :: m :: ms) ++ rest
              = '"' :: (escapeList kd ++ ('"' :: (':' ::
                  (emitV v ++ (',' :: (emitMembers (m :: ms) ++ rest)))))) := by
            simp [emitMembers, emitStr]
          rw [hshape]
          simp +decide [parseMembers, parseStringChars_escape, ihV', ihM']

theorem jfuel_le_emit : ∀ f : Nat,
    (∀ v, jfuelV v ≤ f → jfuelV v ≤ (emitV v).length) ∧
    (∀ x xs, jfuelElems (x :: xs) ≤ f → jfuelElems (x :: xs) ≤ (emitElems (x :: xs)).length) ∧
    (∀ p ms, jfuelMembers (p :: ms) ≤ f →
      jfuelMembers (p :: ms) ≤ (emitMembers (p :: ms)).length) := by
  intro f
  induction f with
  | zero =>
    refine ⟨?_, ?_, ?_⟩
    · intro v hf
      exact absurd hf (by have := jfuelV_pos v; omega)
    · intro x xs hf
      exfalso
      cases xs <;> simp [jfuelElems] at hf
    · intro p ms hf
      exfalso
      obtain ⟨k, v⟩ := p
      cases ms <;> simp [jfuelMembers] at hf
  | succ f ih =>
    obtain ⟨ihV, ihE, ihM⟩ := ih
    refine ⟨?_, ?_, ?_⟩
    · intro v hf
      cases v with
      | null => simp [jfuelV, emitV]
      | bool b => cases b <;> simp [jfuelV, emitV]
      | num n =>
        have h1 : 1 ≤ (emitInt n).length := by
          by_cases hneg : n < 0
          · simp [emitInt, hneg]
          · obtain ⟨c, cs, hc, -⟩ := natDigits_head n.toNat
            simp [emitInt, hneg, hc]
        simp only [jfuelV, emitV]
        omega
      | str s => simp [jfuelV, emitV, emitStr]
      | arr xs =>
        cases xs with
        | nil => simp [jfuelV, jfuelElems, emitV, emitElems]
        | cons x xs =>
          have hfe : jfuelElems (x :: xs) ≤ f := by simp [jfuelV] at hf; omega
          have h := ihE x xs hfe
          simp only [jfuelV, emitV, List.length_cons]
          omega
      | obj ms =>
        cases ms with
        | nil => simp [jfuelV, jfuelMembers, emitV, emitMembers]
        | cons p ms =>
          have hfm : jfuelMembers (p :: ms) ≤ f := by simp [jfuelV] at hf; omega
          have h := ihM p ms hfm
          simp only [jfuelV, emitV, List.length_cons]
          omega
    · intro x xs hf
      cases xs with
      | nil =>
        have hfv : jfuelV x ≤ f := by simp [jfuelElems] at hf; omega
        have h := ihV x hfv
        simp only [jfuelElems, emitElems, List.length_append, List.length_cons,
          List.length_nil]
        omega
      | cons y ys =>
        have hfv : jfuelV x ≤ f := by simp [jfuelElems] at hf; omega
        have hfe : jfuelElems (y :: ys) ≤ f := by simp [jfuelElems] at hf; omega
        have h1 := ihV x hfv
        have h2 := ihE y ys hfe
        simp only [jfuelElems, emitElems, List.length_append, List.length_cons]
        omega
    · intro p ms hf
      obtain ⟨k, v⟩ := p
      cases ms with
      | nil =>
        have hfv : jfuelV v ≤ f := by simp [jfuelMembers] at hf; omega
        have h := ihV v hfv
        simp only [jfuelMembers, emitMembers, List.length_append, List.length_cons,
          List.length_nil]
        omega
      | cons m ms =>
        have hfv : jfuelV v ≤ f := by simp [jfuelMembers] at hf; omega
        have hfm : jfuelMembers (m :: ms) ≤ f := by simp [jfuelMembers] at hf; omega
        have h1 := ihV v hfv
        have h2 := ihM m ms hfm
        simp only [jfuelMembers, emitMembers, List.length_append, List.length_cons]
        omega

/-- The serialization round trip at the heart of claim C9: parsing the
compact text `JSON.stringify` produces recovers the value exactly. -/
theorem json_parse_stringify (v : Json) : Json.parse (Json.stringify v) = some v := by
  have hlen : jfuelV v ≤ (emitV v).length + 1 := by
    have := (jfuel_le_emit (jfuelV v)).1 v le_rfl
    omega
  have h := (parse_emit ((emitV v).length + 1)).1 v [] hlen (by simp [digitHead])
  rw [List.append_nil] at h
  simp [Json.parse, Json.stringify, h]

/-- One exchange declaration of the topology configuration
(`opts.exchanges[i]` in the source). -/
structure ExchangeDecl where
  channel : String
  name : String
  type : String
  options : String
deriving DecidableEq, Repr

/-- One queue declaration of the topology configuration. -/
structure QueueDecl where
  channel : String
  name : String
  options : String
deriving DecidableEq, Repr

/-- One binding declaration of the topology configuration. -/
structure BindingDecl where
  channel : String
  queue : String
  exchange : String
  key : String
  options : String
deriving DecidableEq, Repr

/-- The three optional declaration lists `setupTopology` reads from its
options object (`if (opts.exchanges) ...`); an absent list is skipped. -/
structure TopologyOpts where
  exchanges : Option (List ExchangeDecl)
  queues : Option (List QueueDecl)
  bindings : Option (List BindingDecl)
deriving DecidableEq, Repr

/-- A raw broker delivery: its body bytes, decoded as a UTF-8 string
(`msg.content.toString()`). -/
structure RawMsg where
  content : String
deriving DecidableEq, Repr

/-- A request the client hands to the broker library. -/
inductive BrokerCall where
  | createConfirmChannel (channelName : String)
  | assertExchange (ch : ChannelId) (channelName exName ty options : String)
  | assertQueue (ch : ChannelId) (channelName qName options : String)
  | bindQueue (ch : ChannelId) (channelName qName exName key options : String)
  | publish (ch : ChannelId) (exName routingKey payload options : String)
  | ack (ch : ChannelId) (msg : RawMsg) (allUpTo : Bool)
  | ackAll (ch : ChannelId)
  | nack (ch : ChannelId) (msg : RawMsg) (allUpTo requeue : Bool)
  | nackAll (ch : ChannelId) (requeue : Bool)
  | closeCh (ch : ChannelId)
  | cancel (ch : ChannelId) (tag : Option String)
deriving DecidableEq, Repr

/-- One element of the interaction trace: a request is issued to the broker,
or the broker's reply callback for a request fires (`err` is the callback's
error argument, `none` on success). -/
inductive Event where
  | issue (c : BrokerCall)
  | complete (c : BrokerCall) (err : Option JsError)
deriving DecidableEq, Repr

/-- The broker as an oracle: what each request will come back with.
Channel creations are numbered in issue order; assertion outcomes are keyed
by the declared entity's name. -/
structure Broker where
  connectResult : Except JsError Nat
  createResult : Nat → Except JsError ChannelId
  assertExchangeErr : String → Option JsError
  assertQueueErr : String → Option JsError
  bindQueueErr : String → String → Option JsError

/-- State of one run of the client: the `ZeroRabbit` instance fields
(`channels`, `consumerTags`) plus the run's bookkeeping — how many channel
creations were issued, the interaction trace, the assertion requests whose
reply callbacks have not yet fired, and errors thrown asynchronously inside
broker callbacks (uncaught by any caller). -/
structure ZRState where
  channels : List (String × Option ChannelId)
  consumerTags : List (String × String)
  createCount : Nat
  events : List Event
  pending : List BrokerCall
  uncaught : List JsError
deriving DecidableEq, Repr

/-- The Message Wrapper: holds the raw delivery and its eagerly
JSON-decoded body (`this.content = JSON.parse(msg.content.toString())`). -/
structure ZeroRabbitMsg where
  content : Json
  msg : RawMsg

/-- Constructing a `ZeroRabbitMsg` from a raw delivery; `JSON.parse` throws
on a non-JSON payload, modelled as `none`. -/
def ZeroRabbitMsg.ofRaw (m : RawMsg) : Option ZeroRabbitMsg :=
  (Json.parse m.content).map (fun j => ZeroRabbitMsg.mk j m)

/-- Source `getJsonMsg()`. -/
def ZeroRabbitMsg.getJsonMsg (z : ZeroRabbitMsg) : Json := z.content

/-- Source `getMsg()`. -/
def ZeroRabbitMsg.getMsg (z : ZeroRabbitMsg) : RawMsg := z.msg

namespace ZeroRabbit

/-- A fresh client: `new ZeroRabbit()` and an empty trace. -/
def initState : ZRState :=
  { channels := [], consumerTags := [], createCount := 0, events := [], pending := [],
    uncaught := [] }

/-- `this.channels.set(channelName, ch)` (source `setChannel`). -/
def setChannel (channelName : String) (ch : Option ChannelId) (s : ZRState) : ZRState :=
  { s with channels := mapSet s.channels channelName ch }

/-- The synchronous half of `createConfirmChannelPromise`: the call to
`this.rabbitConn.createConfirmChannel(cb)` sends the channel-open request and
returns; the callback fires later.  Returns this request's creation ticket. -/
def issueCreate (channelName : String) (s : ZRState) : Nat × ZRState :=
  (s.createCount,
    { s with
      createCount := s.createCount + 1,
      events := s.events ++ [Event.issue (BrokerCall.createConfirmChannel channelName)] })

/-- The broker's reply callback inside `createConfirmChannelPromise`:
`(err, ch) => { if (err) { reject(err); } this.setChannel(channelName, ch);
resolve(ch); }`.  On error the promise is settled by `reject` first, but the
callback still runs `setChannel(channelName, ch)` with `ch === undefined` and
then calls `resolve` (a no-op on a settled promise). -/
def createReply (channelName : String) (ticket : Nat) (b : Broker) (s : ZRState) :
    Except JsError ChannelId × ZRState :=
  match b.createResult ticket with
  | Except.error e =>
    (Except.error e,
      setChannel channelName none
        { s with
          events := s.events
            ++ [Event.complete (BrokerCall.createConfirmChannel channelName) (some e)] })
  | Except.ok ch =>
    (Except.ok ch,
      setChannel channelName (some ch)
        { s with
          events := s.events
            ++ [Event.complete (BrokerCall.createConfirmChannel channelName) none] })

/-- `createConfirmChannelPromise`, awaited to completion: the request is
issued and the reply delivered. -/
def createConfirmChannelPromise (channelName : String) (b : Broker) (s : ZRState) :
    Except JsError ChannelId × ZRState :=
  match issueCreate channelName s with
  | (t, s1) => createReply channelName t b s1

/-- `getChannel` up to its suspension point (the `await` of the creation
promise): read the map; if a channel (other than a stored `undefined`) is
present, finish with it, otherwise issue the creation request and suspend on
its ticket. -/
def getChannelPhase1 (channelName : String) (s : ZRState) : (ChannelId ⊕ Nat) × ZRState :=
  match jsGet s.channels channelName with
  | some ch => (Sum.inl ch, s)
  | none =>
    match issueCreate channelName s with
    | (t, s1) => (Sum.inr t, s1)

/-- `getChannel` resuming after the creation reply: the rejection handler
(`.catch`, no callback supplied) rethrows as `Error('Error creating
channel: ' + err)`; on success the created channel is returned. -/
def getChannelPhase2 (channelName : String) (ticket : Nat) (b : Broker) (s : ZRState) :
    Except JsError ChannelId × ZRState :=
  match createReply channelName ticket b s with
  | (Except.error e, s') =>
    (Except.error (JsError.error ("Error creating channel: " ++ jsString e)), s')
  | (Except.ok ch, s') => (Except.ok ch, s')

/-- `getChannel(channelName)` as invoked internally (no callback): the two
phases run back to back — the caller awaits the creation when the name is
unregistered. -/
def getChannel (channelName : String) (b : Broker) (s : ZRState) :
    Except JsError ChannelId × ZRState :=
  match getChannelPhase1 channelName s with
  | (Sum.inl ch, s') => (Except.ok ch, s')
  | (Sum.inr t, s') => getChannelPhase2 channelName t b s'

/-- The message of the error `checkChannelExists` throws. -/
def channelNotFoundMsg : String :=
  "Channel was not found!, check your spelling, was the channel created?"

/-- `checkChannelExists(ch)`: throws when the value read from the channel
map is `undefined` (name absent, or `undefined` stored under it). -/
def checkChannelExists (ch : Option ChannelId) : Except JsError Unit :=
  match ch with
  | none => Except.error (JsError.error channelNotFoundMsg)
  | some _ => Except.ok ()

/-- `assertExchange` as `setupTopology` calls it (no user callback): await
channel resolution, then issue `ch.assertExchange(...)` — the broker's reply
callback is recorded as pending, the `async` function returns without
awaiting it. -/
def assertExchange (channelName exName ty options : String) (b : Broker) (s : ZRState) :
    Except JsError Unit × ZRState :=
  match getChannel channelName b s with
  | (Except.error e, s') => (Except.error e, s')
  | (Except.ok ch, s') =>
    let call := BrokerCall.assertExchange ch channelName exName ty options
    (Except.ok (),
      { s' with events := s'.events ++ [Event.issue call], pending := s'.pending ++ [call] })

/-- `assertQueue` as `setupTopology` calls it (no user callback). -/
def assertQueue (channelName qName options : String) (b : Broker) (s : ZRState) :
    Except JsError Unit × ZRState :=
  match getChannel channelName b s with
  | (Except.error e, s') => (Except.error e, s')
  | (Except.ok ch, s') =>
    let call := BrokerCall.assertQueue ch channelName qName options
    (Except.ok (),
      { s' with events := s'.events ++ [Event.issue call], pending := s'.pending ++ [call] })

/-- `bindQueue` as `setupTopology` calls it (no user callback). -/
def bindQueue (channelName qName exName key options : String) (b : Broker) (s : ZRState) :
    Except JsError Unit × ZRState :=
  match getChannel channelName b s with
  | (Except.error e, s') => (Except.error e, s')
  | (Except.ok ch, s') =>
    let call := BrokerCall.bindQueue ch channelName qName exName key options
    (Except.ok (),
      { s' with events := s'.events ++ [Event.issue call], pending := s'.pending ++ [call] })

/-- The source's `asyncForEach`: `await callback(array[i])` for each index in
order; a rejected awaited step rejects the whole loop at that point. -/
def asyncForEach {α : Type} (f : α → ZRState → Except JsError Unit × ZRState) :
    List α → ZRState → Except JsError Unit × ZRState
  | [], s => (Except.ok (), s)
  | x :: xs, s =>
    match f x s with
    | (Except.ok _, s') => asyncForEach f xs s'
    | (Except.error e, s') => (Except.error e, s')

/-- `setupTopology(opts)`: exchanges, then queues, then bindings, each list
traversed with `asyncForEach`; a skipped `if` for an absent list; a rejection
in one phase rejects the whole promise before the next phase starts. -/
def setupTopology (opts : TopologyOpts) (b : Broker) (s : ZRState) :
    Except JsError Unit × ZRState :=
  match (match opts.exchanges with
    | none => (Except.ok (), s)
    | some exs =>
      asyncForEach (fun (ex : ExchangeDecl) s => assertExchange ex.channel ex.name ex.type ex.options b s)
        exs s) with
  | (Except.error e, s1) => (Except.error e, s1)
  | (Except.ok _, s1) =>
    match (match opts.queues with
      | none => (Except.ok (), s1)
      | some qs =>
        asyncForEach (fun (q : QueueDecl) s => assertQueue q.channel q.name q.options b s) qs s1) with
    | (Except.error e, s2) => (Except.error e, s2)
    | (Except.ok _, s2) =>
      match opts.bindings with
      | none => (Except.ok (), s2)
      | some bs =>
        asyncForEach
          (fun (bd : BindingDecl) s => bindQueue bd.channel bd.queue bd.exchange bd.key bd.options b s) bs s2

/-- The outcome the broker oracle assigns to a pending assertion request. -/
def assertErr (b : Broker) : BrokerCall → Option JsError
  | BrokerCall.assertExchange _ _ exName _ _ => b.assertExchangeErr exName
  | BrokerCall.assertQueue _ _ qName _ => b.assertQueueErr qName
  | BrokerCall.bindQueue _ _ qName exName _ _ => b.bindQueueErr qName exName
  | _ => none

/-- The error thrown inside an assertion's reply callback when the broker
reports a failure and no user callback was supplied — the message each of
`assertExchange`, `assertQueue`, `bindQueue` builds. -/
def failMessage : BrokerCall → JsError → JsError
  | BrokerCall.assertExchange _ _ _ _ _, e =>
    JsError.error ("Error in assertExchange(): " ++ jsString e)
  | BrokerCall.assertQueue _ _ _ _, e =>
    JsError.error ("Error in ZeroRabbit.assertQueue(): " ++ jsString e)
  | BrokerCall.bindQueue _ _ _ _ _ _, e =>
    JsError.error ("Error in RabbitMQ.bindQueue(): " ++ jsString e)
  | _, e => e

/-- The uncaught error a pending request will produce when its reply is
delivered, if any. -/
def callFailure (b : Broker) (c : BrokerCall) : Option JsError :=
  (assertErr b c).map (failMessage c)

/-- Deliver the broker's reply callbacks for pending requests, in issue
order: each records its completion event, and a failed assertion with no
user callback throws inside the broker callback — an uncaught error. -/
def deliverLoop (b : Broker) : List BrokerCall → ZRState → ZRState
  | [], s => s
  | c :: rest, s =>
    match assertErr b c with
    | none => deliverLoop b rest { s with events := s.events ++ [Event.complete c none] }
    | some e =>
      deliverLoop b rest
        { s with
          events := s.events ++ [Event.complete c (some e)],
          uncaught := s.uncaught ++ [failMessage c e] }

/-- Deliver every pending reply. -/
def deliverReplies (b : Broker) (s : ZRState) : ZRState :=
  deliverLoop b s.pending { s with pending := [] }

/-- A full topology run under the modelled schedule: the setup loop finishes
issuing (only channel creations are awaited inside it), then the assertion
replies arrive.  This is the run in which every broker reply takes nonzero
time: the `async` assert helpers return as soon as the request is issued, so
nothing in the loop waits for an assertion reply. -/
def runTopology (opts : TopologyOpts) (b : Broker) (s : ZRState) :
    Except JsError Unit × ZRState :=
  match setupTopology opts b s with
  | (r, s') => (r, deliverReplies b s')

/-- The empty-object options value `{}` that `publish` substitutes for
absent options (written with escaped braces). -/
def emptyOpts : String := "\x7b\x7d"

/-- `publish(channelName, exName, JsonMessage, routingKey, options)`:
serialize the body with `JSON.stringify`, resolve the channel, then hand
`Buffer.from(msg)` to `ch.publish` with `routingKey || ''` and
`options || {}`. -/
def publish (channelName exName : String) (jsonMessage : Json) (routingKey : Option String)
    (options : Option String) (b : Broker) (s : ZRState) : Except JsError Unit × ZRState :=
  let msg := Json.stringify jsonMessage
  match getChannel channelName b s with
  | (Except.error e, s') => (Except.error e, s')
  | (Except.ok ch, s') =>
    (Except.ok (),
      { s' with
        events := s'.events
          ++ [Event.issue
              (BrokerCall.publish ch exName (routingKey.getD "") msg
                (options.getD emptyOpts))] })

/-- `ack(channelName, message, allUpTo)`: read the channel from the map
without lazy creation; `checkChannelExists` throws on `undefined` (the
`none` branch below), otherwise `ch.ack(msg, allUpTo)` is issued. -/
def ack (channelName : String) (message : ZeroRabbitMsg) (allUpTo : Bool) (s : ZRState) :
    Except JsError Unit × ZRState :=
  let msg := message.getMsg
  match jsGet s.channels channelName with
  | none => (Except.error (JsError.error channelNotFoundMsg), s)
  | some c =>
    (Except.ok (), { s with events := s.events ++ [Event.issue (BrokerCall.ack c msg allUpTo)] })

/-- `ackAll(channelName)`. -/
def ackAll (channelName : String) (s : ZRState) : Except JsError Unit × ZRState :=
  match jsGet s.channels channelName with
  | none => (Except.error (JsError.error channelNotFoundMsg), s)
  | some c =>
    (Except.ok (), { s with events := s.events ++ [Event.issue (BrokerCall.ackAll c)] })

/-- `nack(channelName, message, allUpTo, requeue)`. -/
def nack (channelName : String) (message : ZeroRabbitMsg) (allUpTo requeue : Bool)
    (s : ZRState) : Except JsError Unit × ZRState :=
  let msg := message.getMsg
  match jsGet s.channels channelName with
  | none => (Except.error (JsError.error channelNotFoundMsg), s)
  | some c =>
    (Except.ok (),
      { s with events := s.events ++ [Event.issue (BrokerCall.nack c msg allUpTo requeue)] })

/-- `nackAll(channelName, requeue)`. -/
def nackAll (channelName : String) (requeue : Bool) (s : ZRState) :
    Except JsError Unit × ZRState :=
  match jsGet s.channels channelName with
  | none => (Except.error (JsError.error channelNotFoundMsg), s)
  | some c =>
    (Except.ok (), { s with events := s.events ++ [Event.issue (BrokerCall.nackAll c requeue)] })

/-- `closeChannel(channelName)`: check, then `ch.close()` and removal from
the map — the check throws before anything is closed or deleted. -/
def closeChannel (channelName : String) (s : ZRState) : Except JsError Unit × ZRState :=
  match jsGet s.channels channelName with
  | none => (Except.error (JsError.error channelNotFoundMsg), s)
  | some c =>
    (Except.ok (),
      { s with
        events := s.events ++ [Event.issue (BrokerCall.closeCh c)],
        channels := mapDelete s.channels channelName })

/-- `cancelChannel(channelName)`: reads the remembered consumer tag (a map
read, no broker call), then checks the channel and issues `ch.cancel`. -/
def cancelChannel (channelName : String) (s : ZRState) : Except JsError Unit × ZRState :=
  let consumerTag := mapGet s.consumerTags channelName
  match jsGet s.channels channelName with
  | none => (Except.error (JsError.error channelNotFoundMsg), s)
  | some c =>
    (Except.ok (),
      { s with events := s.events ++ [Event.issue (BrokerCall.cancel c consumerTag)] })

/-- The structured connection descriptor `connect` accepts in
`opts.connection`. -/
structure ConnDescriptor where
  protocol : String
  hostname : String
  port : Nat
deriving DecidableEq, Repr

/-- The options object passed to `connect`: at most one of a structured
connection and a URL, plus the topology lists `setupTopology` reads from the
same object. -/
structure ConnectOpts where
  connection : Option ConnDescriptor
  url : Option String
  topology : TopologyOpts

/-- Observable outcome of one `connect(opts, callback)` call: the error it
throws synchronously (if any), whether `amqp.connect` was reached, every
`(err, conn)` invocation of the caller's callback, and errors raised inside
broker callbacks that no handler catches. -/
structure ConnectResult where
  thrown : Option JsError
  connectAttempted : Bool
  callbackCalls : List (Option JsError × Option Nat)
  uncaught : List JsError
deriving DecidableEq, Repr

/-- `connect(opts, callback)`.  Validation throws before `amqp.connect` when
both or neither of `connection`/`url` are supplied.  On a connection error
the source's handler runs `if (cb) { cb(err, undefined) }` — but `cb` is not
a name in scope (the parameter is `callback`), so evaluating it raises an
uncaught `ReferenceError` inside the `amqp.connect` callback and the
caller's callback is never invoked.  On success the topology is applied and
`callback(err, conn)` fires with the `null` error of this branch. -/
def connect (opts : ConnectOpts) (hasCallback : Bool) (b : Broker) : ConnectResult :=
  if opts.connection.isSome ∧ opts.url.isSome then
    { thrown :=
        some (JsError.error "Config must include one of \"connection\" or \"url\", but not both!"),
      connectAttempted := false, callbackCalls := [], uncaught := [] }
  else if opts.connection.isSome ∨ opts.url.isSome then
    match b.connectResult with
    | Except.error _ =>
      { thrown := none, connectAttempted := true, callbackCalls := [],
        uncaught := [JsError.referenceError "cb"] }
    | Except.ok conn =>
      match setupTopology opts.topology b initState with
      | (Except.ok _, _) =>
        { thrown := none, connectAttempted := true,
          callbackCalls := if hasCallback then [(none, some conn)] else [], uncaught := [] }
      | (Except.error e, _) =>
        { thrown := none, connectAttempted := true, callbackCalls := [], uncaught := [e] }
  else
    { thrown :=
        some (JsError.error
          "\"connection\" or \"url\" not found in configuration: please include one!"),
      connectAttempted := false, callbackCalls := [], uncaught := [] }

end ZeroRabbit

namespace ZeroRabbit

/-- Identity of a topology entry, as named in its declaration (the channel
object resolved for it is not part of the identity). -/
inductive EntryKey where
  | ex (channelName name ty options : String)
  | q (channelName name options : String)
  | bind (channelName qName exName key options : String)
deriving DecidableEq, Repr

/-- The entry a broker request asserts, if it is an assertion request. -/
def callKey : BrokerCall → Option EntryKey
  | BrokerCall.assertExchange _ cn n t o => some (EntryKey.ex cn n t o)
  | BrokerCall.assertQueue _ cn n o => some (EntryKey.q cn n o)
  | BrokerCall.bindQueue _ cn qn en k o => some (EntryKey.bind cn qn en k o)
  | _ => none

/-- The entry an event issues an assertion for, if it does. -/
def eventAssertKey : Event → Option EntryKey
  | Event.issue c => callKey c
  | _ => none

/-- The assertion requests issued in a trace, in order. -/
def issuedAsserts (evs : List Event) : List EntryKey := evs.filterMap eventAssertKey

/-- The declared entries of a topology configuration in the order the spec
prescribes: exchanges, then queues, then bindings, each in input order. -/
def topologyKeys (opts : TopologyOpts) : List EntryKey :=
  (opts.exchanges.getD []).map (fun e => EntryKey.ex e.channel e.name e.type e.options)
    ++ (opts.queues.getD []).map (fun q => EntryKey.q q.channel q.name q.options)
    ++ (opts.bindings.getD []).map
      (fun bd => EntryKey.bind bd.channel bd.queue bd.exchange bd.key bd.options)

/-- The uncaught error an entry's assertion will produce under the broker
oracle, if its assertion fails. -/
def keyFailure (b : Broker) : EntryKey → Option JsError
  | EntryKey.ex _ n _ _ =>
    (b.assertExchangeErr n).map
      (fun e => JsError.error ("Error in assertExchange(): " ++ jsString e))
  | EntryKey.q _ n _ =>
    (b.assertQueueErr n).map
      (fun e => JsError.error ("Error in ZeroRabbit.assertQueue(): " ++ jsString e))
  | EntryKey.bind _ qn en _ _ =>
    (b.bindQueueErr qn en).map
      (fun e => JsError.error ("Error in RabbitMQ.bindQueue(): " ++ jsString e))

/-- Whether an event is the completion of an assertion request. -/
def isAssertCompleteEv : Event → Bool
  | Event.complete c _ => (callKey c).isSome
  | _ => false

/-- Whether an event is a completion (of any request). -/
def isCompleteEv : Event → Bool
  | Event.complete _ _ => true
  | _ => false

/-- Count of channel-creation requests issued in a trace. -/
def countCreates (evs : List Event) : Nat :=
  (evs.filter (fun ev =>
    match ev with
    | Event.issue (BrokerCall.createConfirmChannel _) => true
    | _ => false)).length

theorem getChannel_events (channelName : String) (b : Broker) (s : ZRState) :
    ∃ evs, (getChannel channelName b s).2.events = s.events ++ evs ∧
      (∀ ev ∈ evs, eventAssertKey ev = none ∧ isAssertCompleteEv ev = false) ∧
      (getChannel channelName b s).2.pending = s.pending ∧
      (getChannel channelName b s).2.uncaught = s.uncaught := by
  cases hjs : jsGet s.channels channelName with
  | some ch =>
    refine ⟨[], ?_⟩
    simp [getChannel, getChannelPhase1, hjs]
  | none =>
    cases hc : b.createResult s.createCount with
    | error e =>
      refine ⟨[Event.issue (BrokerCall.createConfirmChannel channelName),
        Event.complete (BrokerCall.createConfirmChannel channelName) (some e)], ?_⟩
      simp +decide [getChannel, getChannelPhase1, getChannelPhase2, issueCreate,
        createReply, setChannel, hjs, hc, eventAssertKey, callKey, isAssertCompleteEv]
    | ok c =>
      refine ⟨[Event.issue (BrokerCall.createConfirmChannel channelName),
        Event.complete (BrokerCall.createConfirmChannel channelName) none], ?_⟩
      simp +decide [getChannel, getChannelPhase1, getChannelPhase2, issueCreate,
        createReply, setChannel, hjs, hc, eventAssertKey, callKey, isAssertCompleteEv]

theorem getChannel_ok (channelName : String) (b : Broker) (s : ZRState)
    (hb : ∀ n, ∃ c, b.createResult n = Except.ok c) :
    ∃ ch s', getChannel channelName b s = (Except.ok ch, s') ∧
      issuedAsserts s'.events = issuedAsserts s.events ∧
      s'.pending = s.pending ∧ s'.uncaught = s.uncaught := by
  cases hjs : jsGet s.channels channelName with
  | some ch =>
    refine ⟨ch, s, ?_, rfl, rfl, rfl⟩
    simp [getChannel, getChannelPhase1, hjs]
  | none =>
    obtain ⟨c, hc⟩ := hb s.createCount
    refine ⟨c,
      { channels := mapSet s.channels channelName (some c),
        consumerTags := s.consumerTags,
        createCount := s.createCount + 1,
        events := (s.events ++ [Event.issue (BrokerCall.createConfirmChannel channelName)])
          ++ [Event.complete (BrokerCall.createConfirmChannel channelName) none],
        pending := s.pending, uncaught := s.uncaught }, ?_, ?_, ?_, ?_⟩ <;>
      simp +decide [getChannel, getChannelPhase1, getChannelPhase2, issueCreate,
        createReply, setChannel, hjs, hc, issuedAsserts, eventAssertKey, callKey]

theorem assertExchange_step (cn en ty o : String) (b : Broker) (s : ZRState)
    (hb : ∀ n, ∃ c, b.createResult n = Except.ok c) :
    ∃ s', assertExchange cn en ty o b s = (Except.ok (), s') ∧
      issuedAsserts s'.events = issuedAsserts s.events ++ [EntryKey.ex cn en ty o] ∧
      (∃ c, s'.pending = s.pending ++ [c] ∧ callKey c = some (EntryKey.ex cn en ty o) ∧
        callFailure b c = keyFailure b (EntryKey.ex cn en ty o)) ∧
      s'.uncaught = s.uncaught := by
  obtain ⟨ch, s1, hgc, hik, hpk, huk⟩ := getChannel_ok cn b s hb
  refine ⟨{ s1 with
      events := s1.events ++ [Event.issue (BrokerCall.assertExchange ch cn en ty o)],
      pending := s1.pending ++ [BrokerCall.assertExchange ch cn en ty o] },
    ?_, ?_, ⟨BrokerCall.assertExchange ch cn en ty o, ?_, rfl, ?_⟩, ?_⟩
  · simp [assertExchange, hgc]
  · simp [issuedAsserts, List.filterMap_append, eventAssertKey, callKey]
    simp [issuedAsserts] at hik
    exact hik
  · rw [hpk]
  · simp only [callFailure, assertErr, keyFailure]
    cases hx : b.assertExchangeErr en <;> simp [failMessage]
  · simp [huk]

theorem assertQueue_step (cn qn o : String) (b : Broker) (s : ZRState)
    (hb : ∀ n, ∃ c, b.createResult n = Except.ok c) :
    ∃ s', assertQueue cn qn o b s = (Except.ok (), s') ∧
      issuedAsserts s'.events = issuedAsserts s.events ++ [EntryKey.q cn qn o] ∧
      (∃ c, s'.pending = s.pending ++ [c] ∧ callKey c = some (EntryKey.q cn qn o) ∧
        callFailure b c = keyFailure b (EntryKey.q cn qn o)) ∧
      s'.uncaught = s.uncaught := by
  obtain ⟨ch, s1, hgc, hik, hpk, huk⟩ := getChannel_ok cn b s hb
  refine ⟨{ s1 with
      events := s1.events ++ [Event.issue (BrokerCall.assertQueue ch cn qn o)],
      pending := s1.pending ++ [BrokerCall.assertQueue ch cn qn o] },
    ?_, ?_, ⟨BrokerCall.assertQueue ch cn qn o, ?_, rfl, ?_⟩, ?_⟩
  · simp [assertQueue, hgc]
  · simp [issuedAsserts, List.filterMap_append, eventAssertKey, callKey]
    simp [issuedAsserts] at hik
    exact hik
  · rw [hpk]
  · simp only [callFailure, assertErr, keyFailure]
    cases hx : b.assertQueueErr qn <;> simp [failMessage]
  · simp [huk]

theorem bindQueue_step (cn qn en k o : String) (b : Broker) (s : ZRState)
    (hb : ∀ n, ∃ c, b.createResult n = Except.ok c) :
    ∃ s', bindQueue cn qn en k o b s = (Except.ok (), s') ∧
      issuedAsserts s'.events = issuedAsserts s.events ++ [EntryKey.bind cn qn en k o] ∧
      (∃ c, s'.pending = s.pending ++ [c] ∧ callKey c = some (EntryKey.bind cn qn en k o) ∧
        callFailure b c = keyFailure b (EntryKey.bind cn qn en k o)) ∧
      s'.uncaught = s.uncaught := by
  obtain ⟨ch, s1, hgc, hik, hpk, huk⟩ := getChannel_ok cn b s hb
  refine ⟨{ s1 with
      events := s1.events ++ [Event.issue (BrokerCall.bindQueue ch cn qn en k o)],
      pending := s1.pending ++ [BrokerCall.bindQueue ch cn qn en k o] },
    ?_, ?_, ⟨BrokerCall.bindQueue ch cn qn en k o, ?_, rfl, ?_⟩, ?_⟩
  · simp [bindQueue, hgc]
  · simp [issuedAsserts, List.filterMap_append, eventAssertKey, callKey]
    simp [issuedAsserts] at hik
    exact hik
  · rw [hpk]
  · simp only [callFailure, assertErr, keyFailure]
    cases hx : b.bindQueueErr qn en <;> simp [failMessage]
  · simp [huk]

theorem asyncForEach_shape {α : Type} (b : Broker)
    (f : α → ZRState → Except JsError Unit × ZRState) (key : α → EntryKey)
    (hf : ∀ x s, ∃ s', f x s = (Except.ok (), s') ∧
      issuedAsserts s'.events = issuedAsserts s.events ++ [key x] ∧
      (∃ c, s'.pending = s.pending ++ [c] ∧ callKey c = some (key x) ∧
        callFailure b c = keyFailure b (key x)) ∧
      s'.uncaught = s.uncaught) :
    ∀ xs s, ∃ s', asyncForEach f xs s = (Except.ok (), s') ∧
      issuedAsserts s'.events = issuedAsserts s.events ++ xs.map key ∧
      (∃ cs, s'.pending = s.pending ++ cs ∧
        cs.filterMap (callFailure b) = (xs.map key).filterMap (keyFailure b)) ∧
      s'.uncaught = s.uncaught := by
  intro xs
  induction xs with
  | nil =>
    intro s
    exact ⟨s, rfl, by simp, ⟨[], by simp, by simp⟩, rfl⟩
  | cons x xs ih =>
    intro s
    obtain ⟨s1, hf1, hik1, ⟨c, hp1, hck, hcf⟩, hu1⟩ := hf x s
    obtain ⟨s2, hf2, hik2, ⟨cs, hp2, hfm⟩, hu2⟩ := ih s1
    refine ⟨s2, ?_, ?_, ⟨c :: cs, ?_, ?_⟩, ?_⟩
    · simp [asyncForEach, hf1, hf2]
    · rw [hik2, hik1]; simp
    · rw [hp2, hp1]; simp
    · simp only [List.map_cons, List.filterMap_cons, hcf, hfm]
    · rw [hu2, hu1]

theorem setupTopology_shape (opts : TopologyOpts) (b : Broker) (s : ZRState)
    (hb : ∀ n, ∃ c, b.createResult n = Except.ok c) :
    ∃ s', setupTopology opts b s = (Except.ok (), s') ∧
      issuedAsserts s'.events = issuedAsserts s.events ++ topologyKeys opts ∧
      (∃ cs, s'.pending = s.pending ++ cs ∧
        cs.filterMap (callFailure b) = (topologyKeys opts).filterMap (keyFailure b)) ∧
      s'.uncaught = s.uncaught := by
  have h1 : ∃ s1, (match opts.exchanges with
      | none => (Except.ok (), s)
      | some exs =>
        asyncForEach
          (fun (ex : ExchangeDecl) s => assertExchange ex.channel ex.name ex.type ex.options b s)
          exs s) = (Except.ok (), s1) ∧
      issuedAsserts s1.events = issuedAsserts s.events
        ++ ((opts.exchanges.getD []).map
            (fun e => EntryKey.ex e.channel e.name e.type e.options)) ∧
      (∃ cs, s1.pending = s.pending ++ cs ∧
        cs.filterMap (callFailure b)
          = ((opts.exchanges.getD []).map
              (fun e => EntryKey.ex e.channel e.name e.type e.options)).filterMap
              (keyFailure b)) ∧
      s1.uncaught = s.uncaught := by
    cases hex : opts.exchanges with
    | none => exact ⟨s, rfl, by simp, ⟨[], by simp, by simp⟩, rfl⟩
    | some exs =>
      obtain ⟨s1, ha, hik, hcs, hu⟩ :=
        asyncForEach_shape b
          (fun (ex : ExchangeDecl) s => assertExchange ex.channel ex.name ex.type ex.options b s)
          (fun e => EntryKey.ex e.channel e.name e.type e.options)
          (fun x s => assertExchange_step x.channel x.name x.type x.options b s hb) exs s
      exact ⟨s1, ha, by simpa using hik, by simpa using hcs, hu⟩
  obtain ⟨s1, ha1, hik1, ⟨cs1, hp1, hf1⟩, hu1⟩ := h1
  have h2 : ∃ s2, (match opts.queues with
      | none => (Except.ok (), s1)
      | some qs =>
        asyncForEach (fun (q : QueueDecl) s => assertQueue q.channel q.name q.options b s)
          qs s1) = (Except.ok (), s2) ∧
      issuedAsserts s2.events = issuedAsserts s1.events
        ++ ((opts.queues.getD []).map (fun q => EntryKey.q q.channel q.name q.options)) ∧
      (∃ cs, s2.pending = s1.pending ++ cs ∧
        cs.filterMap (callFailure b)
          = ((opts.queues.getD []).map
              (fun q => EntryKey.q q.channel q.name q.options)).filterMap (keyFailure b)) ∧
      s2.uncaught = s1.uncaught := by
    cases hqs : opts.queues with
    | none => exact ⟨s1, rfl, by simp, ⟨[], by simp, by simp⟩, rfl⟩
    | some qs =>
      obtain ⟨s2, ha, hik, hcs, hu⟩ :=
        asyncForEach_shape b
          (fun (q : QueueDecl) s => assertQueue q.channel q.name q.options b s)
          (fun q => EntryKey.q q.channel q.name q.options)
          (fun x s => assertQueue_step x.channel x.name x.options b s hb) qs s1
      exact ⟨s2, ha, by simpa using hik, by simpa using hcs, hu⟩
  obtain ⟨s2, ha2, hik2, ⟨cs2, hp2, hf2⟩, hu2⟩ := h2
  have h3 : ∃ s3, (match opts.bindings with
      | none => (Except.ok (), s2)
      | some bs =>
        asyncForEach
          (fun (bd : BindingDecl) s => bindQueue bd.channel bd.queue bd.exchange bd.key bd.options b s)
          bs s2) = (Except.ok (), s3) ∧
      issuedAsserts s3.events = issuedAsserts s2.events
        ++ ((opts.bindings.getD []).map
            (fun bd => EntryKey.bind bd.channel bd.queue bd.exchange bd.key bd.options)) ∧
      (∃ cs, s3.pending = s2.pending ++ cs ∧
        cs.filterMap (callFailure b)
          = ((opts.bindings.getD []).map
              (fun bd => EntryKey.bind bd.channel bd.queue bd.exchange bd.key bd.options)).filterMap
              (keyFailure b)) ∧
      s3.uncaught = s2.uncaught := by
    cases hbs : opts.bindings with
    | none => exact ⟨s2, rfl, by simp, ⟨[], by simp, by simp⟩, rfl⟩
    | some bs =>
      obtain ⟨s3, ha, hik, hcs, hu⟩ :=
        asyncForEach_shape b
          (fun (bd : BindingDecl) s => bindQueue bd.channel bd.queue bd.exchange bd.key bd.options b s)
          (fun bd => EntryKey.bind bd.channel bd.queue bd.exchange bd.key bd.options)
          (fun x s => bindQueue_step x.channel x.queue x.exchange x.key x.options b s hb) bs s2
      exact ⟨s3, ha, by simpa using hik, by simpa using hcs, hu⟩
  obtain ⟨s3, ha3, hik3, ⟨cs3, hp3, hf3⟩, hu3⟩ := h3
  refine ⟨s3, ?_, ?_, ⟨cs1 ++ cs2 ++ cs3, ?_, ?_⟩, ?_⟩
  · simp only [setupTopology, ha1, ha2, ha3]
  · rw [hik3, hik2, hik1, topologyKeys]
    simp [List.append_assoc]
  · rw [hp3, hp2, hp1]
    simp [List.append_assoc]
  · rw [topologyKeys]
    simp only [List.filterMap_append, hf1, hf2, hf3]
  · rw [hu3, hu2, hu1]

theorem deliverLoop_shape (b : Broker) : ∀ calls s,
    (deliverLoop b calls s).events
      = s.events ++ calls.map (fun c => Event.complete c (assertErr b c)) ∧
    (deliverLoop b calls s).uncaught = s.uncaught ++ calls.filterMap (callFailure b) ∧
    (deliverLoop b calls s).pending = s.pending := by
  intro calls
  induction calls with
  | nil =>
    intro s
    simp [deliverLoop]
  | cons c rest ih =>
    intro s
    cases hae : assertErr b c with
    | none =>
      obtain ⟨h1, h2, h3⟩ := ih { s with events := s.events ++ [Event.complete c none] }
      refine ⟨?_, ?_, ?_⟩ <;>
        simp [deliverLoop, hae, h1, h2, h3, callFailure]
    | some e =>
      obtain ⟨h1, h2, h3⟩ := ih
        { s with events := s.events ++ [Event.complete c (some e)],
                 uncaught := s.uncaught ++ [failMessage c e] }
      refine ⟨?_, ?_, ?_⟩ <;>
        simp [deliverLoop, hae, h1, h2, h3, callFailure]

theorem assertExchange_events (cn en ty o : String) (b : Broker) (s : ZRState) :
    ∃ evs, (assertExchange cn en ty o b s).2.events = s.events ++ evs ∧
      ∀ ev ∈ evs, isAssertCompleteEv ev = false := by
  obtain ⟨evs, he, hall, hp, hu⟩ := getChannel_events cn b s
  cases hgc : getChannel cn b s with
  | mk r s1 =>
    rw [hgc] at he
    replace he : s1.events = s.events ++ evs := he
    cases r with
    | error e =>
      exact ⟨evs, by simp [assertExchange, hgc, he], fun ev h => (hall ev h).2⟩
    | ok ch =>
      refine ⟨evs ++ [Event.issue (BrokerCall.assertExchange ch cn en ty o)], ?_, ?_⟩
      · simp [assertExchange, hgc, he]
      · intro ev h
        rcases List.mem_append.mp h with h | h
        · exact (hall ev h).2
        · simp at h
          simp [h, isAssertCompleteEv]

theorem assertQueue_events (cn qn o : String) (b : Broker) (s : ZRState) :
    ∃ evs, (assertQueue cn qn o b s).2.events = s.events ++ evs ∧
      ∀ ev ∈ evs, isAssertCompleteEv ev = false := by
  obtain ⟨evs, he, hall, hp, hu⟩ := getChannel_events cn b s
  cases hgc : getChannel cn b s with
  | mk r s1 =>
    rw [hgc] at he
    replace he : s1.events = s.events ++ evs := he
    cases r with
    | error e =>
      exact ⟨evs, by simp [assertQueue, hgc, he], fun ev h => (hall ev h).2⟩
    | ok ch =>
      refine ⟨evs ++ [Event.issue (BrokerCall.assertQueue ch cn qn o)], ?_, ?_⟩
      · simp [assertQueue, hgc, he]
      · intro ev h
        rcases List.mem_append.mp h with h | h
        · exact (hall ev h).2
        · simp at h
          simp [h, isAssertCompleteEv]

theorem bindQueue_events (cn qn en k o : String) (b : Broker) (s : ZRState) :
    ∃ evs, (bindQueue cn qn en k o b s).2.events = s.events ++ evs ∧
      ∀ ev ∈ evs, isAssertCompleteEv ev = false := by
  obtain ⟨evs, he, hall, hp, hu⟩ := getChannel_events cn b s
  cases hgc : getChannel cn b s with
  | mk r s1 =>
    rw [hgc] at he
    replace he : s1.events = s.events ++ evs := he
    cases r with
    | error e =>
      exact ⟨evs, by simp [bindQueue, hgc, he], fun ev h => (hall ev h).2⟩
    | ok ch =>
      refine ⟨evs ++ [Event.issue (BrokerCall.bindQueue ch cn qn en k o)], ?_, ?_⟩
      · simp [bindQueue, hgc, he]
      · intro ev h
        rcases List.mem_append.mp h with h | h
        · exact (hall ev h).2
        · simp at h
          simp [h, isAssertCompleteEv]

theorem asyncForEach_events {α : Type} (f : α → ZRState → Except JsError Unit × ZRState)
    (hf : ∀ x s, ∃ evs, (f x s).2.events = s.events ++ evs ∧
      ∀ ev ∈ evs, isAssertCompleteEv ev = false) :
    ∀ xs s, ∃ evs, (asyncForEach f xs s).2.events = s.events ++ evs ∧
      ∀ ev ∈ evs, isAssertCompleteEv ev = false := by
  intro xs
  induction xs with
  | nil =>
    intro s
    exact ⟨[], by simp [asyncForEach], by simp⟩
  | cons x xs ih =>
    intro s
    obtain ⟨evs1, he1, hall1⟩ := hf x s
    cases hfx : f x s with
    | mk r s1 =>
      rw [hfx] at he1
      replace he1 : s1.events = s.events ++ evs1 := he1
      cases r with
      | error e =>
        exact ⟨evs1, by simp [asyncForEach, hfx, he1], hall1⟩
      | ok u =>
        obtain ⟨evs2, he2, hall2⟩ := ih s1
        refine ⟨evs1 ++ evs2, ?_, ?_⟩
        · simp [asyncForEach, hfx, he2, he1]
        · intro ev h
          rcases List.mem_append.mp h with h | h
          · exact hall1 ev h
          · exact hall2 ev h

theorem setupTopology_events (opts : TopologyOpts) (b : Broker) (s : ZRState) :
    ∃ evs, (setupTopology opts b s).2.events = s.events ++ evs ∧
      ∀ ev ∈ evs, isAssertCompleteEv ev = false := by
  have hex : ∀ s0 : ZRState, ∃ evs, (match opts.exchanges with
      | none => (Except.ok (), s0)
      | some exs =>
        asyncForEach
          (fun (ex : ExchangeDecl) s => assertExchange ex.channel ex.name ex.type ex.options b s)
          exs s0 : Except JsError Unit × ZRState).2.events = s0.events ++ evs ∧
      ∀ ev ∈ evs, isAssertCompleteEv ev = false := by
    intro s0
    cases opts.exchanges with
    | none => exact ⟨[], by simp, by simp⟩
    | some exs =>
      exact asyncForEach_events _
        (fun x s => assertExchange_events x.channel x.name x.type x.options b s) exs s0
  have hqu : ∀ s0 : ZRState, ∃ evs, (match opts.queues with
      | none => (Except.ok (), s0)
      | some qs =>
        asyncForEach (fun (q : QueueDecl) s => assertQueue q.channel q.name q.options b s)
          qs s0 : Except JsError Unit × ZRState).2.events = s0.events ++ evs ∧
      ∀ ev ∈ evs, isAssertCompleteEv ev = false := by
    intro s0
    cases opts.queues with
    | none => exact ⟨[], by simp, by simp⟩
    | some qs =>
      exact asyncForEach_events _
        (fun x s => assertQueue_events x.channel x.name x.options b s) qs s0
  have hbi : ∀ s0 : ZRState, ∃ evs, (match opts.bindings with
      | none => (Except.ok (), s0)
      | some bs =>
        asyncForEach
          (fun (bd : BindingDecl) s =>
            bindQueue bd.channel bd.queue bd.exchange bd.key bd.options b s)
          bs s0 : Except JsError Unit × ZRState).2.events = s0.events ++ evs ∧
      ∀ ev ∈ evs, isAssertCompleteEv ev = false := by
    intro s0
    cases opts.bindings with
    | none => exact ⟨[], by simp, by simp⟩
    | some bs =>
      exact asyncForEach_events _
        (fun x s => bindQueue_events x.channel x.queue x.exchange x.key x.options b s) bs s0
  obtain ⟨⟨r1, s1⟩, h1⟩ : ∃ p, (match opts.exchanges with
    | none => (Except.ok (), s)
    | some exs =>
      asyncForEach
        (fun (ex : ExchangeDecl) s => assertExchange ex.channel ex.name ex.type ex.options b s)
        exs s : Except JsError Unit × ZRState) = p := ⟨_, rfl⟩
  obtain ⟨evs1, he1, hall1⟩ := hex s
  rw [h1] at he1
  replace he1 : s1.events = s.events ++ evs1 := he1
  cases r1 with
  | error e =>
    refine ⟨evs1, ?_, hall1⟩
    rw [setupTopology]
    simp only [h1]
    exact he1
  | ok u =>
    obtain ⟨⟨r2, s2⟩, h2⟩ : ∃ p, (match opts.queues with
      | none => (Except.ok (), s1)
      | some qs =>
        asyncForEach (fun (q : QueueDecl) s => assertQueue q.channel q.name q.options b s)
          qs s1 : Except JsError Unit × ZRState) = p := ⟨_, rfl⟩
    obtain ⟨evs2, he2, hall2⟩ := hqu s1
    rw [h2] at he2
    replace he2 : s2.events = s1.events ++ evs2 := he2
    cases r2 with
    | error e =>
      refine ⟨evs1 ++ evs2, ?_, ?_⟩
      · rw [setupTopology]
        simp only [h1, h2]
        rw [he2, he1]
        simp
      · intro ev h
        rcases List.mem_append.mp h with h | h
        · exact hall1 ev h
        · exact hall2 ev h
    | ok u2 =>
      obtain ⟨evs3, he3, hall3⟩ := hbi s2
      refine ⟨evs1 ++ (evs2 ++ evs3), ?_, ?_⟩
      · rw [setupTopology]
        simp only [h1, h2]
        rw [he3, he2, he1]
        simp
      · intro ev h
        rcases List.mem_append.mp h with h | h
        · exact hall1 ev h
        rcases List.mem_append.mp h with h | h
        · exact hall2 ev h
        · exact hall3 ev h

end ZeroRabbit

namespace ZeroRabbit

/-- A broker that accepts everything; channel creations return channel
`n` for the `n`-th request. -/
def bAllOk : Broker :=
  { connectResult := Except.ok 0, createResult := fun n => Except.ok n,
    assertExchangeErr := fun _ => none, assertQueueErr := fun _ => none,
    bindQueueErr := fun _ _ => none }

/-- Claim C1: for every topology configuration passed to `setupTopology`
(with the broker granting channel creations), all exchange declarations are
processed before any queue declaration, all queue declarations before any
binding declaration, and within each of the three lists entries are
processed in their given input order: the assertion requests issued to the
broker are exactly `topologyKeys opts` — exchanges, then queues, then
bindings, each in input order. -/
theorem setupTopology_processes_in_order (opts : TopologyOpts) (b : Broker) (s : ZRState)
    (hb : ∀ n, ∃ c, b.createResult n = Except.ok c) :
    (setupTopology opts b s).1 = Except.ok () ∧
    issuedAsserts (setupTopology opts b s).2.events
      = issuedAsserts s.events ++ topologyKeys opts := by
  obtain ⟨s', h, hik, -, -⟩ := setupTopology_shape opts b s hb
  rw [h]
  exact ⟨rfl, hik⟩

/-- Concrete topology used to witness claim C1. -/
def optsW : TopologyOpts :=
  { exchanges := some [⟨"chE", "ex1", "fanout", "o"⟩],
    queues := some [⟨"chQ", "qa", "o"⟩, ⟨"chQ", "qb", "o"⟩],
    bindings := some [⟨"chQ", "qa", "ex1", "k", "o"⟩] }

/-- Witness for claim C1 at a concrete topology and broker. -/
theorem setupTopology_processes_in_order_witness :
    (∀ n, ∃ c, bAllOk.createResult n = Except.ok c) ∧
    ((setupTopology optsW bAllOk initState).1 = Except.ok () ∧
      issuedAsserts (setupTopology optsW bAllOk initState).2.events
        = issuedAsserts initState.events ++ topologyKeys optsW) ∧
    topologyKeys optsW
      = [EntryKey.ex "chE" "ex1" "fanout" "o", EntryKey.q "chQ" "qa" "o",
         EntryKey.q "chQ" "qb" "o", EntryKey.bind "chQ" "qa" "ex1" "k" "o"] :=
  ⟨fun n => ⟨n, rfl⟩,
   setupTopology_processes_in_order optsW bAllOk initState (fun n => ⟨n, rfl⟩), rfl⟩

/-- Broker for claim C2's scenario: the assertion of queue `q2` fails,
everything else succeeds. -/
def bQ2Fails : Broker :=
  { connectResult := Except.ok 0, createResult := fun n => Except.ok (7 + n),
    assertExchangeErr := fun _ => none,
    assertQueueErr := fun q => if q = "q2" then some (JsError.error "boom") else none,
    bindQueueErr := fun _ _ => none }

/-- The three-queue list of claim C2, second entry failing. -/
def optsQ3 : TopologyOpts :=
  { exchanges := none,
    queues := some [⟨"ch1", "q1", "o"⟩, ⟨"ch1", "q2", "o"⟩, ⟨"ch1", "q3", "o"⟩],
    bindings := none }

/-- Counterexample to claim C2.  The claim: when the second queue's
assertion fails, topology application aborts, the third entry is never
asserted, and a `TopologySetupError` wrapping the broker error surfaces to
the caller.  In the code: `assertQueue` issues `ch.assertQueue` without
awaiting the broker's reply, so the loop continues — the third entry IS
asserted; `setupTopology`'s promise resolves successfully; the broker error
is thrown inside the reply callback (an uncaught generic `Error`, not a
`TopologySetupError` surfaced to the caller). -/
theorem setupTopology_no_abort_cex :
    (setupTopology optsQ3 bQ2Fails initState).1 = Except.ok () ∧
    issuedAsserts (setupTopology optsQ3 bQ2Fails initState).2.events
      = [EntryKey.q "ch1" "q1" "o", EntryKey.q "ch1" "q2" "o", EntryKey.q "ch1" "q3" "o"] ∧
    (runTopology optsQ3 bQ2Fails initState).2.uncaught
      = [JsError.error "Error in ZeroRabbit.assertQueue(): Error: boom"] :=
  ⟨rfl, rfl, rfl⟩

/-- Claim C2 as amended: an assertion failure does not abort topology
application — with channel creations granted, `setupTopology` resolves
successfully, every declared entry's assertion is issued, and each failing
assertion surfaces only as an uncaught error thrown inside its broker reply
callback (the generic `Error in ...` message wrapping the broker error),
not as an error returned to the caller. -/
theorem setupTopology_assert_failure_semantics (opts : TopologyOpts) (b : Broker) (s : ZRState)
    (hb : ∀ n, ∃ c, b.createResult n = Except.ok c)
    (hp : s.pending = []) (hu : s.uncaught = []) :
    (setupTopology opts b s).1 = Except.ok () ∧
    issuedAsserts (runTopology opts b s).2.events
      = issuedAsserts s.events ++ topologyKeys opts ∧
    (runTopology opts b s).2.uncaught = (topologyKeys opts).filterMap (keyFailure b) := by
  obtain ⟨s', h, hik, ⟨cs, hpend, hfail⟩, hunc⟩ := setupTopology_shape opts b s hb
  obtain ⟨hde, hdu, hdp⟩ := deliverLoop_shape b s'.pending { s' with pending := [] }
  have hrun : runTopology opts b s
      = (Except.ok (), deliverLoop b s'.pending { s' with pending := [] }) := by
    simp [runTopology, h, deliverReplies]
  have hnokeys : issuedAsserts (s'.pending.map
      (fun c => Event.complete c (assertErr b c))) = [] := by
    have hk : ∀ c : BrokerCall,
        eventAssertKey (Event.complete c (assertErr b c)) = none := fun c => rfl
    simp [issuedAsserts, List.filterMap_map]
    intro c hc
    exact hk c
  refine ⟨by rw [h], ?_, ?_⟩
  · rw [hrun]
    simp only [hde]
    rw [issuedAsserts, List.filterMap_append, ← issuedAsserts, ← issuedAsserts, hnokeys,
      List.append_nil]
    simp only [hik]
  · rw [hrun]
    simp only [hdu]
    rw [hunc, hu, hpend, hp]
    simp [hfail]

/-- Witness for the amended claim C2 at the three-queue scenario. -/
theorem setupTopology_assert_failure_semantics_witness :
    ((∀ n, ∃ c, bQ2Fails.createResult n = Except.ok c) ∧ initState.pending = [] ∧
      initState.uncaught = []) ∧
    ((setupTopology optsQ3 bQ2Fails initState).1 = Except.ok () ∧
      issuedAsserts (runTopology optsQ3 bQ2Fails initState).2.events
        = issuedAsserts initState.events ++ topologyKeys optsQ3 ∧
      (runTopology optsQ3 bQ2Fails initState).2.uncaught
        = (topologyKeys optsQ3).filterMap (keyFailure bQ2Fails)) ∧
    (topologyKeys optsQ3).filterMap (keyFailure bQ2Fails)
      = [JsError.error "Error in ZeroRabbit.assertQueue(): Error: boom"] :=
  ⟨⟨fun n => ⟨7 + n, rfl⟩, rfl, rfl⟩,
   setupTopology_assert_failure_semantics optsQ3 bQ2Fails initState
     (fun n => ⟨7 + n, rfl⟩) rfl rfl, rfl⟩

/-- Two queues on one channel, broker accepting everything — claim C3's
scenario. -/
def optsQ2 : TopologyOpts :=
  { exchanges := none,
    queues := some [⟨"chA", "q1", "o"⟩, ⟨"chA", "q2", "o"⟩],
    bindings := none }

/-- Counterexample to claim C3.  The claim: within a list, the broker
assertion for one entry completes (success or failure) before the next
entry's assertion is issued; no two assertions from the same list are in
flight together.  In the code the `async` assert helpers return as soon as
the request is issued; with both queues on the same (cached) channel the
loop runs to completion inside the microtask queue, so both requests are
issued before either broker reply can be delivered.  In the resulting
trace, the issue of `q2`'s assertion (index 3) precedes the completion of
`q1`'s assertion (index 4): both are in flight at once. -/
theorem topology_assertions_in_flight_cex :
    (runTopology optsQ2 bAllOk initState).2.events
      = [Event.issue (BrokerCall.createConfirmChannel "chA"),
         Event.complete (BrokerCall.createConfirmChannel "chA") none,
         Event.issue (BrokerCall.assertQueue 0 "chA" "q1" "o"),
         Event.issue (BrokerCall.assertQueue 0 "chA" "q2" "o"),
         Event.complete (BrokerCall.assertQueue 0 "chA" "q1" "o") none,
         Event.complete (BrokerCall.assertQueue 0 "chA" "q2" "o") none] ∧
    (runTopology optsQ2 bAllOk initState).2.events.get? 3
      = some (Event.issue (BrokerCall.assertQueue 0 "chA" "q2" "o")) ∧
    (runTopology optsQ2 bAllOk initState).2.events.get? 4
      = some (Event.complete (BrokerCall.assertQueue 0 "chA" "q1" "o") none) :=
  ⟨rfl, rfl, rfl⟩

/-- Claim C3 as amended: within each list the assertion requests are issued
strictly sequentially in input order (and each entry's channel resolution is
awaited), but the code does not wait for an assertion to complete before
issuing the next — in a run where broker replies arrive after the setup
loop, the trace splits into a first part containing no assertion completion
(all the issues, and the awaited channel creations with their completions)
followed by a second part of completions only: every assertion completion
comes after every issuance. -/
theorem runTopology_completions_after_issuance (opts : TopologyOpts) (b : Broker) :
    ∃ e1 e2, (runTopology opts b initState).2.events = e1 ++ e2 ∧
      (∀ ev ∈ e1, isAssertCompleteEv ev = false) ∧
      (∀ ev ∈ e2, isCompleteEv ev = true) := by
  obtain ⟨evs, he, hall⟩ := setupTopology_events opts b initState
  cases hst : setupTopology opts b initState with
  | mk r s' =>
    rw [hst] at he
    replace he : s'.events = initState.events ++ evs := he
    obtain ⟨hde, hdu, hdp⟩ := deliverLoop_shape b s'.pending { s' with pending := [] }
    refine ⟨evs, s'.pending.map (fun c => Event.complete c (assertErr b c)), ?_, hall, ?_⟩
    · have hrun : (runTopology opts b initState).2
          = deliverLoop b s'.pending { s' with pending := [] } := by
        simp [runTopology, hst, deliverReplies]
      rw [hrun, hde, he]
      simp [initState]
    · intro ev h
      simp only [List.mem_map] at h
      obtain ⟨c, -, rfl⟩ := h
      rfl

/-- Broker for claim C5's race: the `n`-th channel creation yields channel
`7 + n`; everything else succeeds. -/
def raceBroker : Broker :=
  { connectResult := Except.ok 0, createResult := fun n => Except.ok (7 + n),
    assertExchangeErr := fun _ => none, assertQueueErr := fun _ => none,
    bindQueueErr := fun _ _ => none }

/-- State after the first concurrent caller's registry read (both callers
interleave read–read–reply–reply: each passes the `=== undefined` check
before either creation reply has arrived — a legal single-threaded
event-loop schedule, since the creation reply is asynchronous). -/
def raceS1 : ZRState := (getChannelPhase1 "myCh" initState).2

/-- State after the second concurrent caller's registry read. -/
def raceS2 : ZRState := (getChannelPhase1 "myCh" raceS1).2

/-- State after the first caller's creation reply. -/
def raceS3 : ZRState := (getChannelPhase2 "myCh" 0 raceBroker raceS2).2

/-- State after the second caller's creation reply. -/
def raceS4 : ZRState := (getChannelPhase2 "myCh" 1 raceBroker raceS3).2

/-- Claim C5 evaluated at its failing schedule: two concurrent
`getChannel("myCh")` calls on the unregistered name both observe the name
absent and both issue a creation request — two `createConfirmChannel`
requests reach the broker, the callers obtain two distinct channels (7 and
8), and the registry ends up holding the later one.  The claim's
"at most one channel-creation request reaches the broker; the second caller
waits and receives the same channel instance" fails on the code. -/
theorem getChannel_concurrent_race_two_creations :
    (getChannelPhase1 "myCh" initState).1 = Sum.inr 0 ∧
    (getChannelPhase1 "myCh" raceS1).1 = Sum.inr 1 ∧
    (getChannelPhase2 "myCh" 0 raceBroker raceS2).1 = Except.ok 7 ∧
    (getChannelPhase2 "myCh" 1 raceBroker raceS3).1 = Except.ok 8 ∧
    countCreates raceS4.events = 2 ∧
    jsGet raceS4.channels "myCh" = some 8 :=
  ⟨rfl, rfl, rfl, rfl, rfl, rfl⟩

/-- Claim C4: sequential get-or-create idempotence of the registry.  If a
channel is stored under the name, `getChannel` returns it with no broker
interaction and no state change; if the name is unregistered and the broker
grants the creation, `getChannel` returns the new channel, stores it under
the name, a second call returns the same channel instance with no further
state change, and exactly one channel-creation request was issued across
the two calls. -/
theorem getChannel_get_or_create (channelName : String) (b : Broker) (s : ZRState)
    (c : ChannelId) :
    (jsGet s.channels channelName = some c → getChannel channelName b s = (Except.ok c, s)) ∧
    (jsGet s.channels channelName = none → b.createResult s.createCount = Except.ok c →
      (getChannel channelName b s).1 = Except.ok c ∧
      jsGet (getChannel channelName b s).2.channels channelName = some c ∧
      getChannel channelName b (getChannel channelName b s).2
        = (Except.ok c, (getChannel channelName b s).2) ∧
      countCreates (getChannel channelName b s).2.events = countCreates s.events + 1) := by
  constructor
  · intro h
    simp [getChannel, getChannelPhase1, h]
  · intro h hc
    have hstate : getChannel channelName b s
        = (Except.ok c,
          { s with
            channels := mapSet s.channels channelName (some c),
            createCount := s.createCount + 1,
            events := (s.events
              ++ [Event.issue (BrokerCall.createConfirmChannel channelName)])
              ++ [Event.complete (BrokerCall.createConfirmChannel channelName) none] }) := by
      simp [getChannel, getChannelPhase1, getChannelPhase2, issueCreate, createReply,
        setChannel, h, hc]
    rw [hstate]
    refine ⟨rfl, ?_, ?_, ?_⟩
    · simp [jsGet_mapSet_self]
    · simp [getChannel, getChannelPhase1, jsGet_mapSet_self]
    · simp [countCreates, List.filter_append]

/-- A state with channel 5 registered under the name `"x"`. -/
def stReg : ZRState := { initState with channels := [("x", some 5)] }

/-- Witness for claim C4: the registered branch at `stReg`, and the
get-or-create branch on a fresh name at `initState`. -/
theorem getChannel_get_or_create_witness :
    (jsGet stReg.channels "x" = some 5 ∧ getChannel "x" bAllOk stReg = (Except.ok 5, stReg)) ∧
    (jsGet initState.channels "myCh" = none ∧ bAllOk.createResult initState.createCount
        = Except.ok 0 ∧
      ((getChannel "myCh" bAllOk initState).1 = Except.ok 0 ∧
        jsGet (getChannel "myCh" bAllOk initState).2.channels "myCh" = some 0 ∧
        getChannel "myCh" bAllOk (getChannel "myCh" bAllOk initState).2
          = (Except.ok 0, (getChannel "myCh" bAllOk initState).2) ∧
        countCreates (getChannel "myCh" bAllOk initState).2.events
          = countCreates initState.events + 1)) :=
  ⟨⟨rfl, (getChannel_get_or_create "x" bAllOk stReg 5).1 rfl⟩,
   ⟨rfl, rfl, (getChannel_get_or_create "myCh" bAllOk initState 0).2 rfl rfl⟩⟩

/-- Claim C6: each of `ack`, `nack`, `ackAll`, `nackAll`, `cancelChannel`
and `closeChannel` invoked on a name with no channel in the map fails with
the channel-not-found error, issues no broker call, and leaves the state —
in particular the channel map — unchanged (no lazy creation). -/
theorem ops_on_unregistered_channel_fail (channelName : String) (s : ZRState)
    (message : ZeroRabbitMsg) (allUpTo requeue : Bool)
    (h : jsGet s.channels channelName = none) :
    ack channelName message allUpTo s
      = (Except.error (JsError.error channelNotFoundMsg), s) ∧
    nack channelName message allUpTo requeue s
      = (Except.error (JsError.error channelNotFoundMsg), s) ∧
    ackAll channelName s = (Except.error (JsError.error channelNotFoundMsg), s) ∧
    nackAll channelName requeue s = (Except.error (JsError.error channelNotFoundMsg), s) ∧
    cancelChannel channelName s = (Except.error (JsError.error channelNotFoundMsg), s) ∧
    closeChannel channelName s = (Except.error (JsError.error channelNotFoundMsg), s) := by
  refine ⟨?_, ?_, ?_, ?_, ?_, ?_⟩ <;>
    simp [ack, nack, ackAll, nackAll, cancelChannel, closeChannel, h]

/-- A wrapper message for the claim C6 witness. -/
def msgW : ZeroRabbitMsg := { content := Json.null, msg := { content := "null" } }

/-- Witness for claim C6 on the fresh client and the name `"nope"`. -/
theorem ops_on_unregistered_channel_fail_witness :
    jsGet initState.channels "nope" = none ∧
    (ack "nope" msgW false initState
        = (Except.error (JsError.error channelNotFoundMsg), initState) ∧
      nack "nope" msgW false true initState
        = (Except.error (JsError.error channelNotFoundMsg), initState) ∧
      ackAll "nope" initState = (Except.error (JsError.error channelNotFoundMsg), initState) ∧
      nackAll "nope" true initState
        = (Except.error (JsError.error channelNotFoundMsg), initState) ∧
      cancelChannel "nope" initState
        = (Except.error (JsError.error channelNotFoundMsg), initState) ∧
      closeChannel "nope" initState
        = (Except.error (JsError.error channelNotFoundMsg), initState)) :=
  ⟨rfl, ops_on_unregistered_channel_fail "nope" initState msgW false true rfl⟩

/-- A broker that refuses the initial connection. -/
def bRefuse : Broker :=
  { connectResult := Except.error (JsError.error "ECONNREFUSED"),
    createResult := fun n => Except.ok n, assertExchangeErr := fun _ => none,
    assertQueueErr := fun _ => none, bindQueueErr := fun _ _ => none }

/-- A URL-only configuration with no topology lists. -/
def connOptsUrl : ConnectOpts :=
  { connection := none, url := some "amqp://localhost", topology := ⟨none, none, none⟩ }

/-- Claim C7 evaluated at its failing input: `connect` called with a URL
configuration and a callback, with the broker refusing the connection.  The
claim says the caller-supplied callback receives `(error, result)` with the
broker error; the code's handler reads the unbound identifier `cb` instead
of `callback`, so a `ReferenceError` escapes inside the `amqp.connect`
callback and the caller's callback is never invoked — the broker error is
neither delivered to the callback nor surfaced as itself. -/
theorem connect_error_callback_reference_error :
    connect connOptsUrl true bRefuse
      = { thrown := none, connectAttempted := true, callbackCalls := [],
          uncaught := [JsError.referenceError "cb"] } := rfl

/-- Claim C8: a configuration supplying both a structured connection and a
URL, and a configuration supplying neither, each make `connect` throw its
configuration error synchronously, before any broker connection request is
attempted. -/
theorem connect_config_validation (opts : ConnectOpts) (hasCallback : Bool) (b : Broker) :
    (opts.connection.isSome = true ∧ opts.url.isSome = true →
      connect opts hasCallback b
        = { thrown := some (JsError.error
              "Config must include one of \"connection\" or \"url\", but not both!"),
            connectAttempted := false, callbackCalls := [], uncaught := [] }) ∧
    (opts.connection = none ∧ opts.url = none →
      connect opts hasCallback b
        = { thrown := some (JsError.error
              "\"connection\" or \"url\" not found in configuration: please include one!"),
            connectAttempted := false, callbackCalls := [], uncaught := [] }) := by
  constructor
  · rintro ⟨h1, h2⟩
    simp [connect, h1, h2]
  · rintro ⟨h1, h2⟩
    simp [connect, h1, h2]

/-- A configuration supplying both a structured connection and a URL. -/
def connOptsBoth : ConnectOpts :=
  { connection := some ⟨"amqp", "localhost", 5672⟩, url := some "amqp://x",
    topology := ⟨none, none, none⟩ }

/-- A configuration supplying neither a connection nor a URL. -/
def connOptsNeither : ConnectOpts :=
  { connection := none, url := none, topology := ⟨none, none, none⟩ }

/-- Witness for claim C8 at both concrete invalid configurations. -/
theorem connect_config_validation_witness :
    (connOptsBoth.connection.isSome = true ∧ connOptsBoth.url.isSome = true) ∧
    connect connOptsBoth true bAllOk
      = { thrown := some (JsError.error
            "Config must include one of \"connection\" or \"url\", but not both!"),
          connectAttempted := false, callbackCalls := [], uncaught := [] } ∧
    (connOptsNeither.connection = none ∧ connOptsNeither.url = none) ∧
    connect connOptsNeither true bAllOk
      = { thrown := some (JsError.error
            "\"connection\" or \"url\" not found in configuration: please include one!"),
          connectAttempted := false, callbackCalls := [], uncaught := [] } :=
  ⟨⟨rfl, rfl⟩, (connect_config_validation connOptsBoth true bAllOk).1 ⟨rfl, rfl⟩,
   ⟨rfl, rfl⟩, (connect_config_validation connOptsNeither true bAllOk).2 ⟨rfl, rfl⟩⟩

/-- Claim C9: `publish` serializes the JSON body with `JSON.stringify` to a
UTF-8 JSON text payload and hands it to the broker's publish primitive with
the routing key defaulting to the empty string and the options defaulting
to the empty options object `\x7b\x7d` (no options); and the Message
Wrapper built on delivery parses the payload back, so the wrapper's decoded
body deep-equals the published value. -/
theorem publish_roundtrip (v : Json) (channelName exName : String) (routingKey : Option String)
    (b : Broker) (s : ZRState) (c : ChannelId)
    (h : jsGet s.channels channelName = some c) :
    publish channelName exName v routingKey none b s
      = (Except.ok (),
        { s with
          events := s.events
            ++ [Event.issue (BrokerCall.publish c exName (routingKey.getD "")
                (Json.stringify v) emptyOpts)] }) ∧
    ZeroRabbitMsg.ofRaw { content := Json.stringify v }
      = some { content := v, msg := { content := Json.stringify v } } := by
  constructor
  · simp [publish, getChannel, getChannelPhase1, h]
  · simp [ZeroRabbitMsg.ofRaw, json_parse_stringify]

/-- The claim's test payload `\x7b"a":1\x7d`. -/
def v0 : Json := Json.obj [("a", Json.num 1)]

/-- A state with channel 3 registered under the name `"pubCh"`. -/
def stPub : ZRState := { initState with channels := [("pubCh", some 3)] }

/-- Witness for claim C9 at the payload of the claim, with the serialized
text evaluated concretely. -/
theorem publish_roundtrip_witness :
    jsGet stPub.channels "pubCh" = some 3 ∧
    (publish "pubCh" "ex" v0 none none bAllOk stPub
        = (Except.ok (),
          { stPub with
            events := stPub.events
              ++ [Event.issue (BrokerCall.publish 3 "ex" ((none : Option String).getD "")
                  (Json.stringify v0) emptyOpts)] }) ∧
      ZeroRabbitMsg.ofRaw { content := Json.stringify v0 }
        = some { content := v0, msg := { content := Json.stringify v0 } }) ∧
    Json.stringify v0 = "\x7b\"a\":1\x7d" :=
  ⟨rfl, publish_roundtrip v0 "pubCh" "ex" none bAllOk stPub 3 rfl, rfl⟩

/-- A broker that refuses confirm-channel creation. -/
def bCreateFail : Broker :=
  { connectResult := Except.ok 0,
    createResult := fun _ => Except.error (JsError.error "ACCESS_REFUSED"),
    assertExchangeErr := fun _ => none, assertQueueErr := fun _ => none,
    bindQueueErr := fun _ _ => none }

/-- Claim C10 (implicit): channel creation is not atomic with respect to
the registry on failure.  When the broker rejects the creation, the promise
`createConfirmChannelPromise` returns is rejected with the broker error —
yet the reply callback still runs `this.setChannel(channelName, ch)` with
`ch === undefined`, so the channel map gains an entry mapping the name to
the undefined value. -/
theorem createConfirmChannelPromise_failure_registers_undefined
    (channelName : String) (b : Broker) (s : ZRState) (e : JsError)
    (hc : b.createResult s.createCount = Except.error e) :
    (createConfirmChannelPromise channelName b s).1 = Except.error e ∧
    mapGet (createConfirmChannelPromise channelName b s).2.channels channelName
      = some none := by
  constructor <;>
    simp [createConfirmChannelPromise, issueCreate, createReply, setChannel, hc,
      mapGet_mapSet_self]

/-- Witness for claim C10 on the fresh client. -/
theorem createConfirmChannelPromise_failure_registers_undefined_witness :
    bCreateFail.createResult initState.createCount
      = Except.error (JsError.error "ACCESS_REFUSED") ∧
    ((createConfirmChannelPromise "myCh" bCreateFail initState).1
        = Except.error (JsError.error "ACCESS_REFUSED") ∧
      mapGet (createConfirmChannelPromise "myCh" bCreateFail initState).2.channels "myCh"
        = some none) :=
  ⟨rfl, createConfirmChannelPromise_failure_registers_undefined "myCh" bCreateFail initState
    (JsError.error "ACCESS_REFUSED") rfl⟩

end ZeroRabbit
